import Mathlib

/-!
Verification of the measurement-database repository core: the filename-metadata
parser (`main.py` / `test.py`), the spectrum reader (`analysis.py`:
`read_spectrum` / `tofloat`) and the feature-extraction routines
(`MRM_SPCM_analysis`, `MRM_SSRF_analysis`).

Modelling conventions:
* Python floats are idealised as exact rationals (`ℚ`); `np.nan` cells are
  modelled as `Option ℚ` with `none` for not-a-number.
* scipy/numpy library routines with non-trivial numerics
  (`Polynomial.fit`, `find_peaks`, `peak_prominences`, `peak_widths`,
  `savgol_filter`, elementwise `10 ** x`) are external collaborators; they
  enter the embedding as fields of the interface structure `SciLib`, and
  theorems quantify over any interface instance (with the documented
  numpy/scipy contracts as explicit hypotheses where needed).  Simple numpy
  helpers (`diff`, `median`, `argmin`, `nanargmax`/`nanmax` over a two-row
  stack, array indexing) are modelled exactly.
* Python exceptions are modelled with `Except String`.
-/

namespace DB

/-! ## Generic list helpers -/

/-- Three-way `zipWith`, truncating at the shortest list. -/
def zipWith3L {α β γ δ : Type} (f : α → β → γ → δ) : List α → List β → List γ → List δ
  | a :: as, b :: bs, c :: cs => f a b c :: zipWith3L f as bs cs
  | _, _, _ => []

/-- Four-way `zipWith`, truncating at the shortest list. -/
def zipWith4L {α β γ δ ε : Type} (f : α → β → γ → δ → ε) :
    List α → List β → List γ → List δ → List ε
  | a :: as, b :: bs, c :: cs, d :: ds => f a b c d :: zipWith4L f as bs cs ds
  | _, _, _, _ => []

/-! ## Numeric token parsing (`re.match(r'([-+]?\d*\.?\d+)([a-zA-Z%]*)', t)` + `float`)

The numeric-prefix regex is applied with `re.match` (anchored at the start
only).  Backtracking over `\d*\.?\d+` always yields the longest prefix of the
form digits, digits `.` digits, or `.` digits, ending in a digit; the unit
suffix is the following maximal run of ASCII letters and `%`.  `float` of such
a literal is modelled exactly in `ℚ`. -/

/-- Numeric value of a list of decimal digit characters. -/
def digitsVal (ds : List Char) : Nat :=
  ds.foldl (fun a c => a * 10 + (c.toNat - 48)) 0

/-- Exact rational value of the decimal literal `sgn * (ip . fp)` with `k`
fraction digits, `sgn * (ip + fp / 10^k)`.  Integer literals (`k = 0`) are
built by an integer cast so that the kernel can evaluate them. -/
def decToRat (sgn : Int) (ip fp : Nat) (k : Nat) : ℚ :=
  if k = 0 then ((sgn * ip : Int) : ℚ)
  else ((sgn * (ip * 10 ^ k + fp) : Int) : ℚ) / ((10 ^ k : Nat) : ℚ)

/-- Model of `re.match(r'([-+]?\d*\.?\d+)([a-zA-Z%]*)', t)` followed by
`float(match[1])`: returns the parsed value and the unit suffix, or `none`
when the regex does not match (in the source this surfaces as a `TypeError`
on `match[1]`). -/
def pyNumUnit (t : String) : Option (ℚ × String) :=
  let cs := t.toList
  let sc : Int × List Char :=
    match cs with
    | '-' :: r => (-1, r)
    | '+' :: r => (1, r)
    | _ => (1, cs)
  let sgn := sc.1
  let cs1 := sc.2
  let ds1 := cs1.takeWhile Char.isDigit
  let rest1 := cs1.drop ds1.length
  match rest1 with
  | '.' :: r2 =>
    let ds2 := r2.takeWhile Char.isDigit
    if ds2 ≠ [] then
      let rest := r2.drop ds2.length
      let unit := rest.takeWhile fun c => c.isAlpha || c = '%'
      some (decToRat sgn (digitsVal ds1) (digitsVal ds2) ds2.length, String.mk unit)
    else if ds1 ≠ [] then
      -- group 1 ends before the dot (e.g. "900."); the suffix run at '.' is empty
      some (decToRat sgn (digitsVal ds1) 0 0, "")
    else none
  | _ =>
    if ds1 ≠ [] then
      let unit := rest1.takeWhile fun c => c.isAlpha || c = '%'
      some (decToRat sgn (digitsVal ds1) 0 0, String.mk unit)
    else none

/-! ## The fixed-prefix filename grammars

`MAIN_PATTERN` of `main.py` and `MAIN_PATTERN` of `test.py`.  Both regexes are
anchored sequences of character-class plus-runs (`[^_]+`, `\d+`, `-?\d+`)
separated by literal text, ending in `(?P<rest>.*)\.(?:csv|txt|s2p)$`.  No
class run can cross the literal that follows it (`[^_]+` never contains `_`,
`\d+` is always followed by a non-digit literal), so the Python backtracking
match is equivalent to the deterministic left-to-right parse implemented
here; the trailing greedy `rest` followed by the three-character extension is
equivalent to splitting off the final four characters.  `$` may also match
before a single trailing newline, and `.` does not match a newline. -/

/-- Parse a literal character sequence. -/
def pLit : List Char → List Char → Option (List Char)
  | [], cs => some cs
  | l :: ls, c :: cs => if c = l then pLit ls cs else none
  | _ :: _, [] => none

/-- Parse a nonempty maximal run of characters satisfying `p` (a regex
`[class]+`). -/
def pClass1 (p : Char → Bool) (cs : List Char) : Option (List Char × List Char) :=
  match cs.takeWhile p with
  | [] => none
  | t :: ts => some (t :: ts, cs.drop (t :: ts).length)

/-- Parse `\d+`. -/
def pDigits1 (cs : List Char) : Option (List Char × List Char) :=
  pClass1 Char.isDigit cs

/-- Parse `-?\d+` (the captured text includes the sign). -/
def pSigned (cs : List Char) : Option (List Char × List Char) :=
  match cs with
  | '-' :: rest => (pDigits1 rest).map fun r => ('-' :: r.1, r.2)
  | _ => pDigits1 cs

/-- Extension alternation `\.(?:csv|txt|s2p)` as the final four characters. -/
def extOk (cs : List Char) : Bool :=
  cs == ".csv".toList || cs == ".txt".toList || cs == ".s2p".toList

/-- Named captures of `main.py`'s `MAIN_PATTERN` (all captures are the matched
substrings, exactly as in `m.groupdict()`). -/
structure MainCaps where
  datatype : String
  wafer : String
  doe : String
  die : String
  cage : String
  device : String
  temperature : String
  repeat_ : String
  ch_in : String
  ch_out : String
  power : String
  rest : String
  deriving Repr, DecidableEq

/-- Model of `MAIN_PATTERN.match(name)` from `main.py`:
`^datatype_wafer_doe_die<d>_cage_device_<t>C_rep<r>_ch_<i>_<o>_<p>dBm rest .ext$`. -/
def mainMatch (name : String) : Option MainCaps :=
  let cs0 := name.toList
  let cs := if cs0.getLast? = some '\n' then cs0.dropLast else cs0
  if cs.length < 4 then none
  else if ¬ extOk (cs.drop (cs.length - 4)) then none
  else
    match pClass1 (fun c => c != '_') (cs.take (cs.length - 4)) with
    | none => none
    | some (dt, r1) =>
    match pLit ['_'] r1 with
    | none => none
    | some r2 =>
    match pClass1 (fun c => c != '_') r2 with
    | none => none
    | some (wf, r3) =>
    match pLit ['_'] r3 with
    | none => none
    | some r4 =>
    match pClass1 (fun c => c != '_') r4 with
    | none => none
    | some (doe, r5) =>
    match pLit "_die".toList r5 with
    | none => none
    | some r6 =>
    match pDigits1 r6 with
    | none => none
    | some (die, r7) =>
    match pLit ['_'] r7 with
    | none => none
    | some r8 =>
    match pClass1 (fun c => c != '_') r8 with
    | none => none
    | some (cage, r9) =>
    match pLit ['_'] r9 with
    | none => none
    | some r10 =>
    match pClass1 (fun c => c != '_') r10 with
    | none => none
    | some (dev, r11) =>
    match pLit ['_'] r11 with
    | none => none
    | some r12 =>
    match pSigned r12 with
    | none => none
    | some (temp, r13) =>
    match pLit "C_rep".toList r13 with
    | none => none
    | some r14 =>
    match pDigits1 r14 with
    | none => none
    | some (rep, r15) =>
    match pLit "_ch_".toList r15 with
    | none => none
    | some r16 =>
    match pDigits1 r16 with
    | none => none
    | some (ci, r17) =>
    match pLit ['_'] r17 with
    | none => none
    | some r18 =>
    match pDigits1 r18 with
    | none => none
    | some (co, r19) =>
    match pLit ['_'] r19 with
    | none => none
    | some r20 =>
    match pSigned r20 with
    | none => none
    | some (pw, r21) =>
    match pLit "dBm".toList r21 with
    | none => none
    | some r22 =>
    if r22.all (fun c => c != '\n') then
      some ⟨String.mk dt, String.mk wf, String.mk doe, String.mk die, String.mk cage,
            String.mk dev, String.mk temp, String.mk rep, String.mk ci, String.mk co,
            String.mk pw, String.mk r22⟩
    else none

/-- Named captures of `test.py`'s `MAIN_PATTERN` (the second grammar variant,
with `cage` before `die`, an extra `subdie` field, a `#`-prefixed repeat and
`device` after the repeat). -/
structure TestCaps where
  datatype : String
  wafer : String
  doe : String
  cage : String
  die : String
  subdie : String
  temperature : String
  repeat_ : String
  device : String
  ch_in : String
  ch_out : String
  power : String
  rest : String
  deriving Repr, DecidableEq

/-- Model of `MAIN_PATTERN.match(name)` from `test.py`:
`^datatype_wafer_doe_cage_die<d>_<s>_<t>C_#<r>_device_ch_<i>_<o>_<p>dBm rest .ext$`. -/
def testMatch (name : String) : Option TestCaps :=
  let cs0 := name.toList
  let cs := if cs0.getLast? = some '\n' then cs0.dropLast else cs0
  if cs.length < 4 then none
  else if ¬ extOk (cs.drop (cs.length - 4)) then none
  else
    match pClass1 (fun c => c != '_') (cs.take (cs.length - 4)) with
    | none => none
    | some (dt, r1) =>
    match pLit ['_'] r1 with
    | none => none
    | some r2 =>
    match pClass1 (fun c => c != '_') r2 with
    | none => none
    | some (wf, r3) =>
    match pLit ['_'] r3 with
    | none => none
    | some r4 =>
    match pClass1 (fun c => c != '_') r4 with
    | none => none
    | some (doe, r5) =>
    match pLit ['_'] r5 with
    | none => none
    | some r6 =>
    match pClass1 (fun c => c != '_') r6 with
    | none => none
    | some (cage, r7) =>
    match pLit "_die".toList r7 with
    | none => none
    | some r8 =>
    match pDigits1 r8 with
    | none => none
    | some (die, r9) =>
    match pLit ['_'] r9 with
    | none => none
    | some r10 =>
    match pDigits1 r10 with
    | none => none
    | some (sd, r11) =>
    match pLit ['_'] r11 with
    | none => none
    | some r12 =>
    match pSigned r12 with
    | none => none
    | some (temp, r13) =>
    match pLit "C_#".toList r13 with
    | none => none
    | some r14 =>
    match pDigits1 r14 with
    | none => none
    | some (rep, r15) =>
    match pLit ['_'] r15 with
    | none => none
    | some r16 =>
    match pClass1 (fun c => c != '_') r16 with
    | none => none
    | some (dev, r17) =>
    match pLit "_ch_".toList r17 with
    | none => none
    | some r18 =>
    match pDigits1 r18 with
    | none => none
    | some (ci, r19) =>
    match pLit ['_'] r19 with
    | none => none
    | some r20 =>
    match pDigits1 r20 with
    | none => none
    | some (co, r21) =>
    match pLit ['_'] r21 with
    | none => none
    | some r22 =>
    match pSigned r22 with
    | none => none
    | some (pw, r23) =>
    match pLit "dBm".toList r23 with
    | none => none
    | some r24 =>
    if r24.all (fun c => c != '\n') then
      some ⟨String.mk dt, String.mk wf, String.mk doe, String.mk cage, String.mk die,
            String.mk sd, String.mk temp, String.mk rep, String.mk dev, String.mk ci,
            String.mk co, String.mk pw, String.mk r24⟩
    else none

/-! ## The free-form suffix walk of `parse_filename` (`main.py` lines 42-79) -/

/-- One electrical-condition entry (`{"ec<i> type": _, "ec<i> channel": _,
"ec<i> value": (float, unit)}` in the source; the running index `ec_i` is the
list position). -/
structure ECEntry where
  ecType : String
  channel : String
  value : ℚ × String
  deriving Repr, DecidableEq

/-- Instrumentation record for one iteration of the token-walk loop: which
rule fired (0 = explicit `SMU` block, 1 = implicit instrument block,
2 = explicit `arg` marker, 3 = bare token, consumed or silently skipped when
empty), at which token index, how many tokens it consumed and how many
entries it appended.  The instrumentation does not influence the parsed
entries. -/
structure WalkStep where
  rule : Nat
  start : Nat
  consumed : Nat
  produced : Nat
  deriving Repr, DecidableEq

/-- The `while i < len(tokens)` loop of `parse_filename`.  Mirrors the source
branch for branch, with the remaining suffix `tokens[i:]` as the recursion
argument and `i` carried along for the step records: the source's bound
checks translate to list patterns (`i + 3 < len(tokens)` means three more
tokens follow the current one, `i + 2 < len(tokens)` means two more, `i + 1 <
len(tokens)` means one more).  `IndexError`/`TypeError` raised by Python on
out-of-range token access or on a failing numeric-prefix match (`match[1]`
with `match = None`) become `Except.error`. -/
def walk : List String → Nat → Bool → List ECEntry → List (ℚ × String) → List WalkStep →
    Except String (List ECEntry × List (ℚ × String) × List WalkStep)
  | [], _, _, ecs, args, steps => .ok (ecs, args, steps)
  | token :: rest, i, passSMU, ecs, args, steps =>
    if token = "SMU" then
      match rest with
      | t1 :: t2 :: t3 :: rest' =>
        match pyNumUnit t3 with
        | none => .error "TypeError"
        | some v =>
          walk rest' (i + 4) passSMU (ecs ++ [⟨t1, t2, v⟩]) args (steps ++ [⟨0, i, 4, 1⟩])
      | _ => .error "IndexError"
    else if 2 ≤ rest.length ∧ token ≠ "arg" ∧ passSMU = false then
      match rest with
      | t1 :: t2 :: rest' =>
        match pyNumUnit t2 with
        | none => .error "TypeError"
        | some v =>
          walk rest' (i + 3) passSMU (ecs ++ [⟨token, t1, v⟩]) args (steps ++ [⟨1, i, 3, 1⟩])
      | _ => .error "IndexError"
    else if token = "arg" then
      match rest with
      | t1 :: rest' =>
        match pyNumUnit t1 with
        | none => .error "TypeError"
        | some v => walk rest' (i + 2) true ecs (args ++ [v]) (steps ++ [⟨2, i, 2, 1⟩])
      | _ => .error "IndexError"
    else if token ≠ "" then
      match pyNumUnit token with
      | none => .error "TypeError"
      | some v => walk rest (i + 1) passSMU ecs (args ++ [v]) (steps ++ [⟨3, i, 1, 1⟩])
    else
      walk rest (i + 1) passSMU ecs args (steps ++ [⟨3, i, 1, 0⟩])

/-- Python's `rest.strip("_")`. -/
def pyStripUnderscores (s : String) : String :=
  String.mk (((s.toList.dropWhile fun c => c = '_').reverse.dropWhile fun c => c = '_').reverse)

/-- Python's `str.split(sep)` for a one-character separator: splitting the
empty string yields `[""]`, and adjacent separators yield empty fields. -/
def splitOnChar (sep : Char) : List Char → List (List Char)
  | [] => [[]]
  | c :: cs =>
    if c = sep then [] :: splitOnChar sep cs
    else
      match splitOnChar sep cs with
      | [] => [[c]]
      | g :: gs => (c :: g) :: gs

/-- `rest.strip("_").split("_")` as a token list. -/
def restTokens (rest : String) : List String :=
  (splitOnChar '_' (pyStripUnderscores rest).toList).map String.mk

/-- The record returned by `parse_filename` (the `groupdict` with `rest`
removed and the `SMU` / `arguments` lists added). -/
structure ParsedName where
  datatype : String
  wafer : String
  doe : String
  die : String
  cage : String
  device : String
  temperature : String
  repeat_ : String
  ch_in : String
  ch_out : String
  power : String
  SMU : List ECEntry
  arguments : List (ℚ × String)
  deriving Repr, DecidableEq

/-- `parse_filename` from `main.py`.  The `Path(filename).name` basename step
is dropped (the theorems quantify over the name itself); the `ValueError`
message is rendered in ASCII. -/
def parse_filename (name : String) : Except String ParsedName :=
  match mainMatch name with
  | none => .error ("filename format mismatch: " ++ name)
  | some c =>
    if c.rest = "" then
      .ok ⟨c.datatype, c.wafer, c.doe, c.die, c.cage, c.device, c.temperature, c.repeat_,
           c.ch_in, c.ch_out, c.power, [], []⟩
    else
      match walk (restTokens c.rest) 0 false [] [] [] with
      | .error e => .error e
      | .ok (ecs, args, _) =>
        .ok ⟨c.datatype, c.wafer, c.doe, c.die, c.cage, c.device, c.temperature, c.repeat_,
             c.ch_in, c.ch_out, c.power, ecs, args⟩

/-! ## External scientific-library interface

`analysis.py` calls numpy/scipy routines whose numerics are outside the
repository: `np.polynomial.Polynomial.fit` (least-squares fit, used only
through its evaluation), `scipy.signal.find_peaks`, `peak_prominences`,
`peak_widths`, `savgol_filter`, and elementwise float `10 ** x`.  They are
modelled as an abstract interface; theorems hold for every instance, with the
documented scipy contracts (returned index lists are valid positions, result
lengths match the peak list) as explicit hypotheses where a claim needs
them. -/

structure SciLib where
  /-- `np.polynomial.Polynomial.fit(x, y, order)` as its evaluation function. -/
  polyfit : List ℚ → List ℚ → Nat → (ℚ → ℚ)
  /-- `scipy.signal.find_peaks(y, prominence=p, distance=d)[0]`. -/
  find_peaks : List ℚ → ℚ → Nat → List Nat
  /-- `scipy.signal.peak_prominences(y, peaks)[0]`. -/
  peak_prominences : List ℚ → List Nat → List ℚ
  /-- `scipy.signal.peak_widths(y, peaks, rel_height=r)[0]`. -/
  peak_widths : List ℚ → List Nat → ℚ → List ℚ
  /-- Elementwise float power `10 ** x` (idealised into `ℚ`). -/
  exp10 : ℚ → ℚ
  /-- `scipy.signal.savgol_filter(y, window_length, polyorder)`. -/
  savgol_filter : List ℚ → Int → Int → List ℚ

/-! ## Exact numpy helpers -/

/-- `np.diff(x)`, that is `x[1:] - x[:-1]`. -/
def npDiff (xs : List ℚ) : List ℚ :=
  List.zipWith (fun a b => a - b) (xs.drop 1) xs

/-- Insertion into a sorted list, for `npMedian`. -/
def insertSorted (x : ℚ) : List ℚ → List ℚ
  | [] => [x]
  | y :: ys => if x ≤ y then x :: y :: ys else y :: insertSorted x ys

/-- Sort ascending (insertion sort), for `npMedian`. -/
def sortQ (xs : List ℚ) : List ℚ := xs.foldr insertSorted []

/-- `np.median`: middle element of the sorted data, or the mean of the two
middle elements for even length (`0` on empty input, where numpy returns
nan). -/
def npMedian (xs : List ℚ) : ℚ :=
  let s := sortQ xs
  let n := xs.length
  if n = 0 then 0
  else if n % 2 = 1 then s.getD (n / 2) 0
  else (s.getD (n / 2 - 1) 0 + s.getD (n / 2) 0) / 2

/-- `np.argmin`: index of the first minimum; `none` on an empty array (numpy
raises `ValueError`). -/
def npArgmin : List ℚ → Option Nat
  | [] => none
  | x :: rest =>
    match npArgmin rest with
    | none => some 0
    | some j => if rest.getD j 0 < x then some (j + 1) else some 0

/-- Column-wise `np.nanargmax` on a two-row stack (`none` is `np.nan`): the
row index of the larger non-nan entry, the first row on ties.  The all-nan
column (numpy raises) cannot occur in `MRM_SPCM_analysis` with at least two
valleys. -/
def nanargmax2 (a b : Option ℚ) : Nat :=
  match a, b with
  | some x, some y => if x < y then 1 else 0
  | some _, none => 0
  | none, some _ => 1
  | none, none => 0

/-- Column-wise `np.nanmax` on a two-row stack (same conventions as
`nanargmax2`). -/
def nanmax2 (a b : Option ℚ) : ℚ :=
  match a, b with
  | some x, some y => max x y
  | some x, none => x
  | none, some y => y
  | none, none => 0

/-! ## `MRM_SPCM_analysis` (`analysis.py` lines 107-197)

Each intermediate array of the source is a named definition; the assembled
function mirrors the source's control flow and return values. -/

/-- `frequency = 299792.458 / wavelength` (elementwise). -/
def SPCM_frequency (wavelength : List ℚ) : List ℚ :=
  wavelength.map (fun w => 299792.458 / w)

/-- `loss_level = loss - baseline(wavelength)` where
`baseline = np.polynomial.Polynomial.fit(wavelength, loss, baseline_order)`. -/
def SPCM_loss_level (lib : SciLib) (wavelength loss : List ℚ) (baseline_order : Nat) :
    List ℚ :=
  List.zipWith (fun l w => l - lib.polyfit wavelength loss baseline_order w) loss wavelength

/-- `valley_idx, _ = find_peaks(-loss_level, prominence=prominence, distance=distance)`. -/
def SPCM_valley_idx (lib : SciLib) (wavelength loss : List ℚ) (prominence : ℚ)
    (distance : Nat) (baseline_order : Nat) : List Nat :=
  lib.find_peaks ((SPCM_loss_level lib wavelength loss baseline_order).map (fun x => -x))
    prominence distance

/-- `wavelength_x = wavelength[valley_idx]` (numpy fancy indexing; scipy
returns in-range indices, out-of-range access is modelled by the default). -/
def SPCM_wavelength_x (lib : SciLib) (wavelength loss : List ℚ) (prominence : ℚ)
    (distance : Nat) (baseline_order : Nat) : List ℚ :=
  (SPCM_valley_idx lib wavelength loss prominence distance baseline_order).map
    (fun i => wavelength.getD i 0)

/-- `frequency_x = frequency[valley_idx]`. -/
def SPCM_frequency_x (lib : SciLib) (wavelength loss : List ℚ) (prominence : ℚ)
    (distance : Nat) (baseline_order : Nat) : List ℚ :=
  (SPCM_valley_idx lib wavelength loss prominence distance baseline_order).map
    (fun i => (SPCM_frequency wavelength).getD i 0)

/-- Row `np.r_[FSRnm, np.nan]` of the FSR stack, from
`FSRnm = wavelength_x[1:] - wavelength_x[:-1]`. -/
def SPCM_FSR_fwd (wx : List ℚ) : List (Option ℚ) :=
  (npDiff wx).map some ++ [none]

/-- Row `np.r_[np.nan, FSRnm]` of the FSR stack. -/
def SPCM_FSR_bwd (wx : List ℚ) : List (Option ℚ) :=
  none :: (npDiff wx).map some

/-- `FSRidx = np.nanargmax(np.vstack(...), axis=0)`. -/
def SPCM_FSRidx (wx : List ℚ) : List Nat :=
  List.zipWith nanargmax2 (SPCM_FSR_fwd wx) (SPCM_FSR_bwd wx)

/-- `FSRnm = np.nanmax(np.vstack(...), axis=0)`. -/
def SPCM_FSRnm (wx : List ℚ) : List ℚ :=
  List.zipWith nanmax2 (SPCM_FSR_fwd wx) (SPCM_FSR_bwd wx)

/-- `FSRGHz = frequency_x[:-1] - frequency_x[1:]` (before stacking). -/
def SPCM_FSRg (fx : List ℚ) : List ℚ :=
  List.zipWith (fun a b => a - b) fx (fx.drop 1)

/-- `FSRGHz`: stack `np.r_[g, nan]` / `np.r_[nan, g]` of
`g = frequency_x[:-1] - frequency_x[1:]`, then select `FSRGHz[FSRidx, range]`
(the selected entry is never nan when there are at least two valleys). -/
def SPCM_FSRGHz (wx fx : List ℚ) : List ℚ :=
  zipWith3L (fun g0 g1 t => if t = 0 then g0.getD 0 else g1.getD 0)
    ((SPCM_FSRg fx).map some ++ [none]) (none :: (SPCM_FSRg fx).map some) (SPCM_FSRidx wx)

/-- `ER = -peak_prominences(-loss_level, valley_idx)[0]`. -/
def SPCM_ER (lib : SciLib) (wavelength loss : List ℚ) (prominence : ℚ)
    (distance : Nat) (baseline_order : Nat) : List ℚ :=
  (lib.peak_prominences ((SPCM_loss_level lib wavelength loss baseline_order).map (fun x => -x))
    (SPCM_valley_idx lib wavelength loss prominence distance baseline_order)).map (fun x => -x)

/-- `Ty = 10 ** (loss_level / 10)`. -/
def SPCM_Ty (lib : SciLib) (wavelength loss : List ℚ) (baseline_order : Nat) : List ℚ :=
  (SPCM_loss_level lib wavelength loss baseline_order).map (fun v => lib.exp10 (v / 10))

/-- `wavelength_spacing = np.median(np.diff(wavelength))`. -/
def SPCM_wavelength_spacing (wavelength : List ℚ) : ℚ :=
  npMedian (npDiff wavelength)

/-- `frequency_spacing = -np.median(np.diff(frequency))`. -/
def SPCM_frequency_spacing (wavelength : List ℚ) : ℚ :=
  -npMedian (npDiff (SPCM_frequency wavelength))

/-- `FWHMnm = peak_widths(-Ty, valley_idx, rel_height=0.5)[0] * wavelength_spacing`. -/
def SPCM_FWHMnm (lib : SciLib) (wavelength loss : List ℚ) (prominence : ℚ)
    (distance : Nat) (baseline_order : Nat) : List ℚ :=
  (lib.peak_widths ((SPCM_Ty lib wavelength loss baseline_order).map (fun x => -x))
    (SPCM_valley_idx lib wavelength loss prominence distance baseline_order) (1 / 2)).map
    (fun x => x * SPCM_wavelength_spacing wavelength)

/-- `FWHMGHz = peak_widths(-Ty, valley_idx, rel_height=0.5)[0] * frequency_spacing`. -/
def SPCM_FWHMGHz (lib : SciLib) (wavelength loss : List ℚ) (prominence : ℚ)
    (distance : Nat) (baseline_order : Nat) : List ℚ :=
  (lib.peak_widths ((SPCM_Ty lib wavelength loss baseline_order).map (fun x => -x))
    (SPCM_valley_idx lib wavelength loss prominence distance baseline_order) (1 / 2)).map
    (fun x => x * SPCM_frequency_spacing wavelength)

/-- `Q = wavelength_x / FWHMnm` (elementwise). -/
def SPCM_Q (lib : SciLib) (wavelength loss : List ℚ) (prominence : ℚ)
    (distance : Nat) (baseline_order : Nat) : List ℚ :=
  List.zipWith (fun a b => a / b)
    (SPCM_wavelength_x lib wavelength loss prominence distance baseline_order)
    (SPCM_FWHMnm lib wavelength loss prominence distance baseline_order)

/-- Result dictionaries of the analysis functions: keyed lists of
`(sequence, unit)` pairs, in the source's insertion order. -/
abbrev SPCMDict := List (String × List ℚ × String)

/-- The dictionary returned on the `len(valley_idx) < 2` branch. -/
def SPCM_empty_dict : SPCMDict :=
  [("Extinction Ratio", [], "dB"), ("FSRnm", [], "nm"), ("FSRGHz", [], "GHz"),
   ("FWHMnm", [], "nm"), ("FWHMGHz", [], "GHz"), ("Q factor", [], ""),
   ("valley_wavelength", [], "nm"), ("valley_frequency", [], "THz"),
   ("valley_loss", [], "dB")]

/-- `MRM_SPCM_analysis(wavelength, loss, prominence=2, distance=5,
baseline_order=3)`.  The two `ValueError`s become `Except.error`; the
`< 2`-valleys branch returns the bare dictionary (`Sum.inl`), the full branch
returns the 3-tuple of dictionary, `inspect`-derived function name and
version (`Sum.inr`). -/
def MRM_SPCM_analysis (lib : SciLib) (wavelength loss : List ℚ) (prominence : ℚ)
    (distance : Nat) (baseline_order : Nat) :
    Except String (SPCMDict ⊕ (SPCMDict × String × String)) :=
  if wavelength.length ≠ loss.length then
    .error "wavelength and loss must have the same length"
  else if wavelength.length < 10 then
    .error "too few data points for analysis"
  else
    if (SPCM_valley_idx lib wavelength loss prominence distance baseline_order).length < 2 then
      .ok (.inl SPCM_empty_dict)
    else
      .ok (.inr
        ([("Extinction Ratio", SPCM_ER lib wavelength loss prominence distance baseline_order, "dB"),
          ("FSRnm",
            SPCM_FSRnm (SPCM_wavelength_x lib wavelength loss prominence distance baseline_order),
            "nm"),
          ("FSRGHz",
            SPCM_FSRGHz (SPCM_wavelength_x lib wavelength loss prominence distance baseline_order)
              (SPCM_frequency_x lib wavelength loss prominence distance baseline_order),
            "GHz"),
          ("FWHMnm", SPCM_FWHMnm lib wavelength loss prominence distance baseline_order, "nm"),
          ("FWHMGHz", SPCM_FWHMGHz lib wavelength loss prominence distance baseline_order, "GHz"),
          ("Q factor", SPCM_Q lib wavelength loss prominence distance baseline_order, ""),
          ("valley_wavelength",
            SPCM_wavelength_x lib wavelength loss prominence distance baseline_order, "nm"),
          ("valley_frequency",
            SPCM_frequency_x lib wavelength loss prominence distance baseline_order, "THz")],
         "MRM_SPCM_analysis", "1.0.0"))

/-! ## `MRM_SSRF_analysis` (`analysis.py` lines 199-246) -/

/-- The optional Savitzky-Golay smoothing step:
`savgol_filter(s21, smooth_window, polyorder)` when `smooth_window >= 3 and
polyorder < smooth_window`, otherwise the raw values. -/
def SSRF_smooth (lib : SciLib) (s21 : List ℚ) (smooth_window polyorder : Int) : List ℚ :=
  if 3 ≤ smooth_window ∧ polyorder < smooth_window then
    lib.savgol_filter s21 smooth_window polyorder
  else s21

/-- The boolean crossing mask
`((smooth_s21[:-1]-(ref_loss-drop_levels))*(smooth_s21[1:]-(ref_loss-drop_levels))<=0)
& (smooth_s21[:-1] != smooth_s21[1:])`, with `L = ref_loss - drop_levels`. -/
def SSRF_between (s : List ℚ) (L : ℚ) : List Bool :=
  List.zipWith (fun a b => decide ((a - L) * (b - L) ≤ 0) && decide (¬ a = b))
    s (s.drop 1)

/-- `inter_point = frequency[:-1] + ((ref_loss-drop_levels) - smooth_s21[:-1])
* (frequency[1:] - frequency[:-1]) / (smooth_s21[1:] - smooth_s21[:-1])`. -/
def SSRF_inter_point (frequency s : List ℚ) (L : ℚ) : List ℚ :=
  zipWith4L (fun f0 f1 s0 s1 => f0 + (L - s0) * (f1 - f0) / (s1 - s0))
    frequency (frequency.drop 1) s (s.drop 1)

/-- `MRM_SSRF_analysis(frequency, s21, reference_frequency=0.5, drop_levels=3,
smooth_window=0, polyorder=2)`.  The numpy errors (argmin of an empty array,
reference index out of range, empty boolean-mask selection
`inter_point[between][0]`) become `Except.error`; elementwise pair operations
are modelled for paired samples (`zipWith` truncation replaces numpy
broadcasting errors on mismatched shapes, so theorems assume equal
lengths). -/
def MRM_SSRF_analysis (lib : SciLib) (frequency s21 : List ℚ)
    (reference_frequency drop_levels : ℚ) (smooth_window polyorder : Int) :
    Except String ((List (String × ℚ × String)) × String × String) :=
  match npArgmin (frequency.map (fun f => |f - reference_frequency|)) with
  | none => .error "argmin of an empty sequence"
  | some ref_idx =>
    if ref_idx < (SSRF_smooth lib s21 smooth_window polyorder).length then
      match (((SSRF_inter_point frequency (SSRF_smooth lib s21 smooth_window polyorder)
            ((SSRF_smooth lib s21 smooth_window polyorder).getD ref_idx 0 - drop_levels)).zip
          (SSRF_between (SSRF_smooth lib s21 smooth_window polyorder)
            ((SSRF_smooth lib s21 smooth_window polyorder).getD ref_idx 0
              - drop_levels))).filter (fun q => q.2)).head? with
      | none => .error "index 0 is out of bounds"
      | some q =>
        .ok ([("bandwidth", q.1 - reference_frequency, "GHz")], "MRM_SSRF_analysis", "1.0.0")
    else .error "IndexError"

/-! ## `tofloat` and `read_spectrum` (`analysis.py` lines 6-36)

A CSV file is modelled as its list of rows (lists of cell strings); cell
values are `Option ℚ` with `none` for `np.nan`. -/

/-- Python `float(str)` on finite decimal/scientific literals, `none`
otherwise.  Leading/trailing ASCII whitespace is stripped as Python does;
`inf`/`nan` spellings, digit-group underscores and hex literals - which a
sweep file's numeric cells do not use - are mapped to `none` alongside
unparsable text (in `tofloat` both become `np.nan`). -/
def pyFloat (s : String) : Option ℚ :=
  let cs := (s.toList.dropWhile Char.isWhitespace).reverse.dropWhile Char.isWhitespace
  let cs := cs.reverse
  let sc : ℚ × List Char :=
    match cs with
    | '-' :: r => (-1, r)
    | '+' :: r => (1, r)
    | _ => (1, cs)
  let sgn := sc.1
  let cs1 := sc.2
  let ds1 := cs1.takeWhile Char.isDigit
  let r1 := cs1.drop ds1.length
  let frac : Option (ℚ × List Char) :=
    match r1 with
    | '.' :: r2 =>
      let ds2 := r2.takeWhile Char.isDigit
      if ds1 = [] ∧ ds2 = [] then none
      else some ((digitsVal ds1 : ℚ) + (digitsVal ds2 : ℚ) / (10 : ℚ) ^ ds2.length,
                 r2.drop ds2.length)
    | _ =>
      if ds1 = [] then none else some ((digitsVal ds1 : ℚ), r1)
  match frac with
  | none => none
  | some (mant, r3) =>
    match r3 with
    | [] => some (sgn * mant)
    | e :: r4 =>
      if e = 'e' ∨ e = 'E' then
        let es : Int × List Char :=
          match r4 with
          | '-' :: r5 => (-1, r5)
          | '+' :: r5 => (1, r5)
          | _ => (1, r4)
        let ds3 := es.2.takeWhile Char.isDigit
        if ds3 = [] ∨ es.2.drop ds3.length ≠ [] then none
        else some (sgn * mant * (10 : ℚ) ^ (es.1 * (digitsVal ds3 : Int)))
      else none

/-- `tofloat` from `analysis.py`: `float(value)`, with `ValueError`/`TypeError`
mapped to `np.nan` (`none`). -/
def tofloat (value : String) : Option ℚ := pyFloat value

/-- Header collection `head[row[0]] = (row[1], row[2])` with Python dict
semantics (overwrite an existing key, else append). -/
def headInsert (head : List (String × String × String)) (k : String) (v u : String) :
    List (String × String × String) :=
  if head.any (fun e => e.1 = k) then
    head.map (fun e => if e.1 = k then (k, v, u) else e)
  else head ++ [(k, v, u)]

/-- Cell membership tests of the reader's branch conditions. -/
def startMarkerRow (row : List String) : Bool :=
  row.contains "=== Min" || row.contains "=== Average IL (TLS 0) ==="

/-- `'=== Mueller Row 1 (TLS 0) ===' in row`. -/
def endMarkerRow (row : List String) : Bool :=
  row.contains "=== Mueller Row 1 (TLS 0) ==="

/-- Membership test for the recognized header keys. -/
def headKeyRow (row : List String) : Bool :=
  row.contains "WavelengthStart" || row.contains "WavelengthStop" ||
    row.contains "WavelengthStep" || row.contains "SweepRate"

/-- The epilogue after the row loop: `np.array(data, dtype=float)` (raises on
ragged rows), `data[:,0] *= 1E9` (raises when the array has no rows or no
columns), or `ValueError` when no section marker was found. -/
def read_spectrum_finish (start? : Option Nat) (head : List (String × String × String))
    (data : List (List (Option ℚ))) :
    Except String ((List (String × String × String)) × List (List (Option ℚ))) :=
  match start? with
  | none => .error "Dont support this file format"
  | some _ =>
    match data with
    | [] => .error "IndexError"
    | r0 :: _ =>
      if data.all (fun r => r.length = r0.length) then
        if r0.length = 0 then .error "IndexError"
        else
          .ok (head, data.map (fun r =>
            match r with
            | [] => []
            | c :: cs => (c.map (fun q => q * 1000000000)) :: cs))
      else .error "setting an array element with a sequence"

/-- The `for i, row in enumerate(reader)` loop of `read_spectrum`, branch for
branch: set `start_idx` at the first marker row, break at a Mueller row,
collect rows strictly after `start_idx` (converted cell-wise by `tofloat`),
and collect `(value, unit)` header entries before the marker, raising
`IndexError` on a header row with fewer than three cells. -/
def read_spectrum_rows : List (List String) → Nat → Option Nat → Option Nat →
    List (String × String × String) → List (List (Option ℚ)) →
    Except String ((List (String × String × String)) × List (List (Option ℚ)))
  | [], _, start?, _, head, data => read_spectrum_finish start? head data
  | row :: rest, i, start?, end?, head, data =>
    if start?.isNone && startMarkerRow row then
      read_spectrum_rows rest (i + 1) (some i) end? head data
    else if end?.isNone && endMarkerRow row then
      read_spectrum_finish start? head data
    else
      match start? with
      | some s =>
        if s < i then
          read_spectrum_rows rest (i + 1) start? end? head (data ++ [row.map tofloat])
        else read_spectrum_rows rest (i + 1) start? end? head data
      | none =>
        if headKeyRow row then
          match row with
          | k :: v :: u :: _ => read_spectrum_rows rest (i + 1) start? end? (headInsert head k v u) data
          | _ => .error "IndexError"
        else read_spectrum_rows rest (i + 1) start? end? head data

/-- `read_spectrum(path, start_idx=None, end_idx=None)`, over the file's CSV
rows. -/
def read_spectrum (rows : List (List String)) (start_idx end_idx : Option Nat) :
    Except String ((List (String × String × String)) × List (List (Option ℚ))) :=
  read_spectrum_rows rows 0 start_idx end_idx [] []

/-! ## Specification-side definitions

These follow the wording of the specification's claims (for refinement-style
comparison with the source-side definitions above). -/

/-- Claim wording for the FSR in wavelength units at valley `j`: the larger
of the forward and backward neighbour distances, where an edge valley's
missing neighbour counts as not-a-number and always loses. -/
def FSRnm_claim (wx : List ℚ) (j : Nat) : ℚ :=
  if j + 1 < wx.length then
    if 1 ≤ j then
      max (wx.getD (j + 1) 0 - wx.getD j 0) (wx.getD j 0 - wx.getD (j - 1) 0)
    else wx.getD (j + 1) 0 - wx.getD j 0
  else wx.getD j 0 - wx.getD (j - 1) 0

/-- Whether the neighbour pair selected for the FSR-in-nm value at valley `j`
is the forward pair (the backward distance is missing or not larger). -/
def FSRfwdSel_claim (wx : List ℚ) (j : Nat) : Bool :=
  if j + 1 < wx.length then
    if 1 ≤ j then
      decide (wx.getD j 0 - wx.getD (j - 1) 0 ≤ wx.getD (j + 1) 0 - wx.getD j 0)
    else true
  else false

/-- Claim wording for the FSR in frequency units at valley `j`: the
frequency-domain difference, earlier frequency minus later frequency, of the
same neighbour pair that was selected for the nm value. -/
def FSRGHz_claim (wx fx : List ℚ) (j : Nat) : ℚ :=
  if FSRfwdSel_claim wx j then fx.getD j 0 - fx.getD (j + 1) 0
  else fx.getD (j - 1) 0 - fx.getD j 0

/-- Claim wording for FWHMnm: the width of each valley of the negated linear
transmission `10^(levelled/10)` at 50% relative height, in index units,
multiplied by the median wavelength-sample spacing. -/
def FWHMnm_claim (lib : SciLib) (wavelength loss : List ℚ) (prominence : ℚ)
    (distance : Nat) (baseline_order : Nat) : List ℚ :=
  let levelled := SPCM_loss_level lib wavelength loss baseline_order
  let linearT := levelled.map (fun v => lib.exp10 (v / 10))
  (lib.peak_widths (linearT.map (fun x => -x))
    (SPCM_valley_idx lib wavelength loss prominence distance baseline_order) (1 / 2)).map
    (fun w => w * npMedian (npDiff wavelength))

/-- Claim wording for FWHMGHz: the same index-unit widths multiplied by the
negated median frequency-sample spacing. -/
def FWHMGHz_claim (lib : SciLib) (wavelength loss : List ℚ) (prominence : ℚ)
    (distance : Nat) (baseline_order : Nat) : List ℚ :=
  let levelled := SPCM_loss_level lib wavelength loss baseline_order
  let linearT := levelled.map (fun v => lib.exp10 (v / 10))
  (lib.peak_widths (linearT.map (fun x => -x))
    (SPCM_valley_idx lib wavelength loss prominence distance baseline_order) (1 / 2)).map
    (fun w => w * (-npMedian (npDiff (SPCM_frequency wavelength))))

/-- Two sample values straddle the level `L` when `L` lies between them
(inclusively). -/
def straddles (a b L : ℚ) : Prop := (a ≤ L ∧ L ≤ b) ∨ (b ≤ L ∧ L ≤ a)

/-- Claim wording for the linear interpolation of the frequency at which the
level crosses `L` inside the sample pair `(f0, s0), (f1, s1)`. -/
def SSRF_interp_claim (f0 f1 s0 s1 L : ℚ) : ℚ :=
  f0 + (f1 - f0) * (L - s0) / (s1 - s0)

/-- A step trace partitions the token range `[a, b)`: consecutive steps start
where the previous one ended, each consumes at least one token, and the last
ends at `b`. -/
def StepsChain : Nat → Nat → List WalkStep → Prop
  | a, b, [] => a = b
  | a, b, st :: rest => st.start = a ∧ 1 ≤ st.consumed ∧ StepsChain (a + st.consumed) b rest

/-- Claim wording for the per-row cell conversion of the sweep reader's data
block: every cell is converted by `tofloat` (non-numeric cells to
not-a-number in place) and the first column is additionally multiplied by
`1e9`. -/
def sweepConvRow (r : List String) : List (Option ℚ) :=
  match r with
  | [] => []
  | c :: cs => ((tofloat c).map (fun q => q * 1000000000)) :: cs.map tofloat

/-! ## Concrete interface instances for the witnesses -/

/-- Interface instance whose peak detector finds no valleys. -/
def libNone : SciLib where
  polyfit := fun _ _ _ => fun _ => 0
  find_peaks := fun _ _ _ => []
  peak_prominences := fun _ idx => idx.map (fun _ => 1)
  peak_widths := fun _ idx _ => idx.map (fun _ => 1)
  exp10 := fun _ => 1
  savgol_filter := fun s _ _ => s

/-- Interface instance whose peak detector reports valleys at positions 2
and 5. -/
def libTwo : SciLib where
  polyfit := fun _ _ _ => fun _ => 0
  find_peaks := fun _ _ _ => [2, 5]
  peak_prominences := fun _ idx => idx.map (fun _ => 1)
  peak_widths := fun _ idx _ => idx.map (fun _ => 1)
  exp10 := fun _ => 1
  savgol_filter := fun s _ _ => s

/-! # Helper lemmas -/

theorem getD_zipWith {α β γ : Type} (f : α → β → γ) (l1 : List α) (l2 : List β)
    (j : Nat) (d1 : α) (d2 : β) (d3 : γ) (h1 : j < l1.length) (h2 : j < l2.length) :
    (List.zipWith f l1 l2).getD j d3 = f (l1.getD j d1) (l2.getD j d2) := by
  rw [List.getD_eq_getElem _ _ (by rw [List.length_zipWith]; omega),
      List.getD_eq_getElem _ d1 h1, List.getD_eq_getElem _ d2 h2, List.getElem_zipWith]

theorem getD_zipWith3L {α β γ δ : Type} (f : α → β → γ → δ) (l1 : List α) :
    ∀ (l2 : List β) (l3 : List γ) (j : Nat) (d1 : α) (d2 : β) (d3 : γ) (d4 : δ),
      j < l1.length → j < l2.length → j < l3.length →
      (zipWith3L f l1 l2 l3).getD j d4 = f (l1.getD j d1) (l2.getD j d2) (l3.getD j d3) := by
  induction l1 with
  | nil => intro _ _ _ _ _ _ _ h; simp at h
  | cons a as ih =>
    intro l2 l3 j d1 d2 d3 d4 h1 h2 h3
    cases l2 with
    | nil => simp at h2
    | cons b bs =>
      cases l3 with
      | nil => simp at h3
      | cons c cs =>
        cases j with
        | zero => rfl
        | succ j =>
          simp only [zipWith3L, List.getD_cons_succ]
          exact ih bs cs j d1 d2 d3 d4 (by simpa using h1) (by simpa using h2) (by simpa using h3)

theorem getD_zipWith4L {α β γ δ ε : Type} (f : α → β → γ → δ → ε) (l1 : List α) :
    ∀ (l2 : List β) (l3 : List γ) (l4 : List δ) (j : Nat) (d1 : α) (d2 : β) (d3 : γ) (d4 : δ)
      (d5 : ε), j < l1.length → j < l2.length → j < l3.length → j < l4.length →
      (zipWith4L f l1 l2 l3 l4).getD j d5 =
        f (l1.getD j d1) (l2.getD j d2) (l3.getD j d3) (l4.getD j d4) := by
  induction l1 with
  | nil => intro _ _ _ _ _ _ _ _ _ h; simp at h
  | cons a as ih =>
    intro l2 l3 l4 j d1 d2 d3 d4 d5 h1 h2 h3 h4
    cases l2 with
    | nil => simp at h2
    | cons b bs =>
      cases l3 with
      | nil => simp at h3
      | cons c cs =>
        cases l4 with
        | nil => simp at h4
        | cons e es =>
          cases j with
          | zero => rfl
          | succ j =>
            simp only [zipWith4L, List.getD_cons_succ]
            exact ih bs cs es j d1 d2 d3 d4 d5 (by simpa using h1) (by simpa using h2)
              (by simpa using h3) (by simpa using h4)

theorem npArgmin_none (xs : List ℚ) (h : npArgmin xs = none) : xs = [] := by
  cases xs with
  | nil => rfl
  | cons x rest =>
    rw [npArgmin] at h
    cases hr : npArgmin rest with
    | none => rw [hr] at h; simp at h
    | some j0 =>
      rw [hr] at h
      dsimp only at h
      by_cases hlt : rest.getD j0 0 < x
      · rw [if_pos hlt] at h; simp at h
      · rw [if_neg hlt] at h; simp at h

theorem npArgmin_spec : ∀ (xs : List ℚ) (j : Nat), npArgmin xs = some j →
    j < xs.length ∧ ∀ k, k < xs.length → xs.getD j 0 ≤ xs.getD k 0 := by
  intro xs
  induction xs with
  | nil => intro j h; simp [npArgmin] at h
  | cons x rest ih =>
    intro j h
    rw [npArgmin] at h
    cases hr : npArgmin rest with
    | none =>
      rw [hr] at h
      dsimp only at h
      injection h with h
      subst h
      have hnil := npArgmin_none rest hr
      subst hnil
      refine ⟨by simp, ?_⟩
      intro k hk
      have : k = 0 := by simpa using hk
      subst this
      simp
    | some j0 =>
      rw [hr] at h
      dsimp only at h
      obtain ⟨hj0, hmin⟩ := ih j0 hr
      by_cases hlt : rest.getD j0 0 < x
      · rw [if_pos hlt] at h
        injection h with h
        subst h
        refine ⟨by simpa using Nat.succ_lt_succ hj0, ?_⟩
        intro k hk
        cases k with
        | zero => simpa using le_of_lt hlt
        | succ k => simpa using hmin k (by simpa using hk)
      · rw [if_neg hlt] at h
        injection h with h
        subst h
        refine ⟨by simp, ?_⟩
        intro k hk
        cases k with
        | zero => simp
        | succ k =>
          simp only [List.getD_cons_zero, List.getD_cons_succ]
          exact le_trans (not_lt.mp hlt) (hmin k (by simpa using hk))

theorem filter_head_first {α : Type} (pr : α → Bool) (dflt : α) :
    ∀ (l : List α) (q : α), (l.filter pr).head? = some q →
      ∃ j, j < l.length ∧ l.getD j dflt = q ∧ pr q = true ∧
        ∀ i, i < j → pr (l.getD i dflt) = false := by
  intro l
  induction l with
  | nil => intro q h; simp at h
  | cons x xs ih =>
    intro q h
    by_cases hx : pr x
    · rw [List.filter_cons_of_pos hx] at h
      simp only [List.head?_cons, Option.some.injEq] at h
      subst h
      exact ⟨0, by simp, rfl, hx, by intro i hi; omega⟩
    · rw [List.filter_cons_of_neg (by simpa using hx)] at h
      obtain ⟨j, hj, hq, hpr, hbefore⟩ := ih q h
      refine ⟨j + 1, by simpa using Nat.succ_lt_succ hj, by simpa using hq, hpr, ?_⟩
      intro i hi
      cases i with
      | zero => simpa using hx
      | succ i => simpa using hbefore i (by omega)

theorem pyNumUnit_SMU : pyNumUnit "SMU" = none := rfl

theorem pyNumUnit_arg : pyNumUnit "arg" = none := rfl

theorem pyNumUnit_empty : pyNumUnit "" = none := rfl

theorem StepsChain_le : ∀ (l : List WalkStep) (a b : Nat), StepsChain a b l →
    ∀ st ∈ l, a ≤ st.start := by
  intro l
  induction l with
  | nil => intro a b _ st hst; simp at hst
  | cons s0 rest ih =>
    intro a b hc st hst
    obtain ⟨hstart, hcons, hrest⟩ := hc
    rcases List.mem_cons.mp hst with rfl | hst
    · omega
    · have := ih (a + s0.consumed) b hrest st hst
      omega

/-- Every successful run of the token walk partitions the remaining token
range into the consumed spans of its rule applications; each application
appends exactly one entry except a bare-token application on an empty token,
which appends none. -/
theorem walk_steps : ∀ (n : Nat) (tokens : List String), tokens.length ≤ n →
    ∀ i passSMU ecs args steps ecs2 args2 steps2,
      walk tokens i passSMU ecs args steps = .ok (ecs2, args2, steps2) →
      ∃ tail, steps2 = steps ++ tail ∧ StepsChain i (i + tokens.length) tail ∧
        ∀ st ∈ tail, st.produced = 1 ∨
          (st.rule = 3 ∧ st.consumed = 1 ∧ st.produced = 0 ∧
            tokens.getD (st.start - i) "" = "") := by
  intro n
  induction n with
  | zero =>
    intro tokens hlen i passSMU ecs args steps ecs2 args2 steps2 h
    have : tokens = [] := List.length_eq_zero.mp (by omega)
    subst this
    rw [walk.eq_def] at h
    dsimp only at h
    injection h with h
    refine ⟨[], ?_, by simp [StepsChain], by simp⟩
    have := congrArg (fun p : List ECEntry × List (ℚ × String) × List WalkStep => p.2.2) h
    simpa using this.symm
  | succ n ih =>
    intro tokens hlen i passSMU ecs args steps ecs2 args2 steps2 h
    cases tokens with
    | nil =>
      rw [walk.eq_def] at h
      dsimp only at h
      injection h with h
      refine ⟨[], ?_, by simp [StepsChain], by simp⟩
      have := congrArg (fun p : List ECEntry × List (ℚ × String) × List WalkStep => p.2.2) h
      simpa using this.symm
    | cons token rest =>
      rw [walk.eq_def] at h
      dsimp only at h
      by_cases hSMU : token = "SMU"
      · rw [if_pos hSMU] at h
        cases rest with
        | nil => simp at h
        | cons t1 r1 =>
          cases r1 with
          | nil => simp at h
          | cons t2 r2 =>
            cases r2 with
            | nil => simp at h
            | cons t3 rest' =>
              dsimp only at h
              cases hv : pyNumUnit t3 with
              | none => rw [hv] at h; simp at h
              | some v =>
                rw [hv] at h
                dsimp only at h
                obtain ⟨tail', hsteps, hchain, hprop⟩ :=
                  ih rest' (by simp only [List.length_cons] at hlen; omega) (i + 4) passSMU
                    (ecs ++ [⟨t1, t2, v⟩]) args (steps ++ [⟨0, i, 4, 1⟩]) ecs2 args2 steps2 h
                refine ⟨⟨0, i, 4, 1⟩ :: tail', by simpa using hsteps, ?_, ?_⟩
                · refine ⟨rfl, by simp, ?_⟩
                  have hlen4 : i + (token :: t1 :: t2 :: t3 :: rest').length
                      = i + 4 + rest'.length := by simp; omega
                  rw [hlen4]
                  exact hchain
                · intro st hst
                  rcases List.mem_cons.mp hst with rfl | hst
                  · exact Or.inl rfl
                  · rcases hprop st hst with hp | ⟨hr, hc, hp, htok⟩
                    · exact Or.inl hp
                    · refine Or.inr ⟨hr, hc, hp, ?_⟩
                      have hge : i + 4 ≤ st.start :=
                        StepsChain_le tail' (i + 4) _ hchain st hst
                      have : st.start - i = (st.start - (i + 4)) + 4 := by omega
                      rw [this]
                      simpa using htok
      · rw [if_neg hSMU] at h
        by_cases hB : 2 ≤ rest.length ∧ token ≠ "arg" ∧ passSMU = false
        · rw [if_pos hB] at h
          cases rest with
          | nil => simp at hB
          | cons t1 r1 =>
            cases r1 with
            | nil => simp at hB
            | cons t2 rest' =>
              dsimp only at h
              cases hv : pyNumUnit t2 with
              | none => rw [hv] at h; simp at h
              | some v =>
                rw [hv] at h
                dsimp only at h
                obtain ⟨tail', hsteps, hchain, hprop⟩ :=
                  ih rest' (by simp only [List.length_cons] at hlen; omega) (i + 3) passSMU
                    (ecs ++ [⟨token, t1, v⟩]) args (steps ++ [⟨1, i, 3, 1⟩]) ecs2 args2 steps2 h
                refine ⟨⟨1, i, 3, 1⟩ :: tail', by simpa using hsteps, ?_, ?_⟩
                · refine ⟨rfl, by simp, ?_⟩
                  have hlen3 : i + (token :: t1 :: t2 :: rest').length
                      = i + 3 + rest'.length := by simp; omega
                  rw [hlen3]
                  exact hchain
                · intro st hst
                  rcases List.mem_cons.mp hst with rfl | hst
                  · exact Or.inl rfl
                  · rcases hprop st hst with hp | ⟨hr, hc, hp, htok⟩
                    · exact Or.inl hp
                    · refine Or.inr ⟨hr, hc, hp, ?_⟩
                      have hge : i + 3 ≤ st.start :=
                        StepsChain_le tail' (i + 3) _ hchain st hst
                      have : st.start - i = (st.start - (i + 3)) + 3 := by omega
                      rw [this]
                      simpa using htok
        · rw [if_neg hB] at h
          by_cases hArg : token = "arg"
          · rw [if_pos hArg] at h
            cases rest with
            | nil => simp at h
            | cons t1 rest' =>
              dsimp only at h
              cases hv : pyNumUnit t1 with
              | none => rw [hv] at h; simp at h
              | some v =>
                rw [hv] at h
                dsimp only at h
                obtain ⟨tail', hsteps, hchain, hprop⟩ :=
                  ih rest' (by simp only [List.length_cons] at hlen; omega) (i + 2) true
                    ecs (args ++ [v]) (steps ++ [⟨2, i, 2, 1⟩]) ecs2 args2 steps2 h
                refine ⟨⟨2, i, 2, 1⟩ :: tail', by simpa using hsteps, ?_, ?_⟩
                · refine ⟨rfl, by simp, ?_⟩
                  have hlen2 : i + (token :: t1 :: rest').length = i + 2 + rest'.length := by
                    simp; omega
                  rw [hlen2]
                  exact hchain
                · intro st hst
                  rcases List.mem_cons.mp hst with rfl | hst
                  · exact Or.inl rfl
                  · rcases hprop st hst with hp | ⟨hr, hc, hp, htok⟩
                    · exact Or.inl hp
                    · refine Or.inr ⟨hr, hc, hp, ?_⟩
                      have hge : i + 2 ≤ st.start :=
                        StepsChain_le tail' (i + 2) _ hchain st hst
                      have : st.start - i = (st.start - (i + 2)) + 2 := by omega
                      rw [this]
                      simpa using htok
          · rw [if_neg hArg] at h
            by_cases hEmp : token ≠ ""
            · rw [if_pos hEmp] at h
              cases hv : pyNumUnit token with
              | none => rw [hv] at h; simp at h
              | some v =>
                rw [hv] at h
                dsimp only at h
                obtain ⟨tail', hsteps, hchain, hprop⟩ :=
                  ih rest (by simp only [List.length_cons] at hlen; omega) (i + 1) passSMU
                    ecs (args ++ [v]) (steps ++ [⟨3, i, 1, 1⟩]) ecs2 args2 steps2 h
                refine ⟨⟨3, i, 1, 1⟩ :: tail', by simpa using hsteps, ?_, ?_⟩
                · refine ⟨rfl, by simp, ?_⟩
                  have hlen1 : i + (token :: rest).length = i + 1 + rest.length := by
                    simp; omega
                  rw [hlen1]
                  exact hchain
                · intro st hst
                  rcases List.mem_cons.mp hst with rfl | hst
                  · exact Or.inl rfl
                  · rcases hprop st hst with hp | ⟨hr, hc, hp, htok⟩
                    · exact Or.inl hp
                    · refine Or.inr ⟨hr, hc, hp, ?_⟩
                      have hge : i + 1 ≤ st.start :=
                        StepsChain_le tail' (i + 1) _ hchain st hst
                      have : st.start - i = (st.start - (i + 1)) + 1 := by omega
                      rw [this]
                      simpa using htok
            · rw [if_neg hEmp] at h
              push_neg at hEmp
              obtain ⟨tail', hsteps, hchain, hprop⟩ :=
                ih rest (by simp only [List.length_cons] at hlen; omega) (i + 1) passSMU
                  ecs args (steps ++ [⟨3, i, 1, 0⟩]) ecs2 args2 steps2 h
              refine ⟨⟨3, i, 1, 0⟩ :: tail', by simpa using hsteps, ?_, ?_⟩
              · refine ⟨rfl, by simp, ?_⟩
                have hlen1 : i + (token :: rest).length = i + 1 + rest.length := by
                  simp; omega
                rw [hlen1]
                exact hchain
              · intro st hst
                rcases List.mem_cons.mp hst with rfl | hst
                · exact Or.inr ⟨rfl, rfl, rfl, by simpa using hEmp⟩
                · rcases hprop st hst with hp | ⟨hr, hc, hp, htok⟩
                  · exact Or.inl hp
                  · refine Or.inr ⟨hr, hc, hp, ?_⟩
                    have hge : i + 1 ≤ st.start :=
                      StepsChain_le tail' (i + 1) _ hchain st hst
                    have : st.start - i = (st.start - (i + 1)) + 1 := by omega
                    rw [this]
                    simpa using htok

/-! # Claim C1 -/

/-- C1: Parsing the filename
`SPCM_W001_D1_die2_C1_Dev1_25C_rep1_ch_1_2_-10dBm_SMU_pn_1_900mV.csv` succeeds
and yields exactly datatype "SPCM", wafer "W001", doe "D1", die 2, cage "C1",
device "Dev1", temperature 25, repeat 1, channel-in 1, channel-out 2,
power -10, one SMU entry with type "pn", channel 1 and value (900.0, "mV"),
and an empty argument list (the fixed-field captures are the matched digit
strings, as in the source's `groupdict`). -/
theorem C1_parse_example :
    parse_filename "SPCM_W001_D1_die2_C1_Dev1_25C_rep1_ch_1_2_-10dBm_SMU_pn_1_900mV.csv" =
      .ok ⟨"SPCM", "W001", "D1", "2", "C1", "Dev1", "25", "1", "1", "2", "-10",
           [⟨"pn", "1", (900, "mV")⟩], []⟩ := by
  rfl

/-! # Claim C3 -/

/-- C3 counterexample: the filename
`DCIV_PIC9-FPN3_DOE1_MRM158_die1_1_25C_#1_D4_ch_9_9_5dBm_SMU_pn_1_900mV.csv`
matches the second grammar variant (`test.py`'s pattern, with sub-die and
`#`-prefixed repeat), yet `parse_filename` (`main.py`) rejects it: the claim
that parse accepts a filename whenever either variant matches is false. -/
theorem C3_counterexample :
    (testMatch
        "DCIV_PIC9-FPN3_DOE1_MRM158_die1_1_25C_#1_D4_ch_9_9_5dBm_SMU_pn_1_900mV.csv").isSome
      = true ∧
    parse_filename "DCIV_PIC9-FPN3_DOE1_MRM158_die1_1_25C_#1_D4_ch_9_9_5dBm_SMU_pn_1_900mV.csv"
      = .error ("filename format mismatch: "
          ++ "DCIV_PIC9-FPN3_DOE1_MRM158_die1_1_25C_#1_D4_ch_9_9_5dBm_SMU_pn_1_900mV.csv") := by
  exact ⟨rfl, rfl⟩

/-- C3 (amended): `parse_filename` in `main.py` tries only the first grammar
variant; it fails on every filename whose fixed-field prefix does not match
that variant, regardless of whether the second variant (present only in the
separate `test.py` parser) matches. -/
theorem C3_main_variant_only (name : String) (h : mainMatch name = none) :
    parse_filename name = .error ("filename format mismatch: " ++ name) := by
  unfold parse_filename
  rw [h]

theorem C3_witness :
    parse_filename "badname.csv" = .error ("filename format mismatch: " ++ "badname.csv") :=
  C3_main_variant_only "badname.csv" rfl

/-! # Claim C2, counterexample -/

/-- C2 counterexample: for the filename
`SPCM_W001_D1_die2_C1_Dev1_25C_rep1_ch_1_2_-10dBm_1V_2V_3V.csv` the fixed
prefix matches with rest `_1V_2V_3V`, whose three tokens are all bare
numeric+unit tokens (no `SMU`/`arg` markers), yet the parse returns one
implicit electrical-condition entry and an empty argument list - not three
arguments and an empty electrical-condition list as the claim states. -/
theorem C2_counterexample :
    (mainMatch "SPCM_W001_D1_die2_C1_Dev1_25C_rep1_ch_1_2_-10dBm_1V_2V_3V.csv").map
        MainCaps.rest = some "_1V_2V_3V" ∧
    restTokens "_1V_2V_3V" = ["1V", "2V", "3V"] ∧
    (∀ t ∈ ["1V", "2V", "3V"], (pyNumUnit t).isSome ∧ t ≠ "SMU" ∧ t ≠ "arg") ∧
    parse_filename "SPCM_W001_D1_die2_C1_Dev1_25C_rep1_ch_1_2_-10dBm_1V_2V_3V.csv" =
      .ok ⟨"SPCM", "W001", "D1", "2", "C1", "Dev1", "25", "1", "1", "2", "-10",
           [⟨"1V", "2V", (3, "V")⟩], []⟩ := by
  exact ⟨rfl, rfl, by decide, rfl⟩

/-! # Claim C7 -/

/-- C7: for every valley-scan input passing the length preconditions (equal
array lengths, at least 10 samples) on which the peak detector reports fewer
than 2 valleys for the given prominence and distance constraints, the
analysis returns the fixed dictionary whose sequence-valued fields are all
empty, and raises no error. -/
theorem C7_few_valleys (lib : SciLib) (wavelength loss : List ℚ) (prominence : ℚ)
    (distance baseline_order : Nat)
    (hlen : wavelength.length = loss.length) (h10 : 10 ≤ wavelength.length)
    (hfew : (SPCM_valley_idx lib wavelength loss prominence distance baseline_order).length < 2) :
    MRM_SPCM_analysis lib wavelength loss prominence distance baseline_order =
      .ok (.inl SPCM_empty_dict) ∧
    ∀ e ∈ SPCM_empty_dict, e.2.1 = [] := by
  constructor
  · unfold MRM_SPCM_analysis
    rw [if_neg (by omega), if_neg (by omega), if_pos hfew]
  · decide

theorem C7_witness :
    MRM_SPCM_analysis libNone [1, 2, 3, 4, 5, 6, 7, 8, 9, 10] [0, 0, 0, 0, 0, 0, 0, 0, 0, 0]
        2 5 3 = .ok (.inl SPCM_empty_dict) ∧
    ∀ e ∈ SPCM_empty_dict, e.2.1 = [] :=
  C7_few_valleys libNone [1, 2, 3, 4, 5, 6, 7, 8, 9, 10] [0, 0, 0, 0, 0, 0, 0, 0, 0, 0]
    2 5 3 (by decide) (by decide) (by decide)

/-! # Claim C9 -/

/-- C9 counterexample: for the accepted filename
`SPCM_W001_D1_die2_C1_Dev1_25C_rep1_ch_1_2_-10dBm_arg_1V__2V.csv` the suffix
splits into the four tokens `arg`, `1V`, (empty), `2V`; the walk succeeds,
but its step trace contains a bare-token application that consumed the empty
token at index 2 and produced no entry: that token is dropped silently and
contributes to no electrical-condition or argument entry, refuting the
claim. -/
theorem C9_counterexample :
    (mainMatch "SPCM_W001_D1_die2_C1_Dev1_25C_rep1_ch_1_2_-10dBm_arg_1V__2V.csv").map
        MainCaps.rest = some "_arg_1V__2V" ∧
    restTokens "_arg_1V__2V" = ["arg", "1V", "", "2V"] ∧
    parse_filename "SPCM_W001_D1_die2_C1_Dev1_25C_rep1_ch_1_2_-10dBm_arg_1V__2V.csv" =
      .ok ⟨"SPCM", "W001", "D1", "2", "C1", "Dev1", "25", "1", "1", "2", "-10",
           [], [(1, "V"), (2, "V")]⟩ ∧
    walk ["arg", "1V", "", "2V"] 0 false [] [] [] =
      .ok ([], [(1, "V"), (2, "V")], [⟨2, 0, 2, 1⟩, ⟨3, 2, 1, 0⟩, ⟨3, 3, 1, 1⟩]) ∧
    ([⟨2, 0, 2, 1⟩, ⟨3, 2, 1, 0⟩, ⟨3, 3, 1, 1⟩] : List WalkStep).any
      (fun st => st.produced = 0) = true := by
  exact ⟨rfl, rfl, rfl, rfl, rfl⟩

/-- C9 (amended): for every filename accepted by the fixed-field grammar with
a non-empty free-form rest suffix on which the token walk succeeds, the rule
applications partition the token range (each token is consumed by exactly
one application), and every application contributes exactly one
electrical-condition or argument entry except a bare-token application on an
empty token, which contributes none - empty tokens are dropped silently. -/
theorem C9_token_consumption (name : String) (c : MainCaps) (hm : mainMatch name = some c)
    (hr : c.rest ≠ "") (ecs : List ECEntry) (args : List (ℚ × String)) (steps : List WalkStep)
    (hw : walk (restTokens c.rest) 0 false [] [] [] = .ok (ecs, args, steps)) :
    parse_filename name =
      .ok ⟨c.datatype, c.wafer, c.doe, c.die, c.cage, c.device, c.temperature, c.repeat_,
           c.ch_in, c.ch_out, c.power, ecs, args⟩ ∧
    StepsChain 0 (restTokens c.rest).length steps ∧
    ∀ st ∈ steps, st.produced = 1 ∨
      (st.rule = 3 ∧ st.consumed = 1 ∧ st.produced = 0 ∧
        (restTokens c.rest).getD st.start "" = "") := by
  obtain ⟨tail, htail, hchain, hprop⟩ :=
    walk_steps (restTokens c.rest).length (restTokens c.rest) (Nat.le_refl _)
      0 false [] [] [] ecs args steps hw
  refine ⟨?_, ?_, ?_⟩
  · unfold parse_filename
    rw [hm]
    dsimp only
    rw [if_neg hr]
    rw [hw]
  · have : steps = tail := by simpa using htail
    subst this
    simpa using hchain
  · have : steps = tail := by simpa using htail
    subst this
    intro st hst
    simpa using hprop st hst

theorem C9_witness :
    parse_filename "SPCM_W001_D1_die2_C1_Dev1_25C_rep1_ch_1_2_-10dBm_arg_5mA.csv" =
      .ok ⟨"SPCM", "W001", "D1", "2", "C1", "Dev1", "25", "1", "1", "2", "-10",
           [], [(5, "mA")]⟩ ∧
    StepsChain 0 (restTokens "_arg_5mA").length [⟨2, 0, 2, 1⟩] ∧
    ∀ st ∈ ([⟨2, 0, 2, 1⟩] : List WalkStep), st.produced = 1 ∨
      (st.rule = 3 ∧ st.consumed = 1 ∧ st.produced = 0 ∧
        (restTokens "_arg_5mA").getD st.start "" = "") :=
  C9_token_consumption "SPCM_W001_D1_die2_C1_Dev1_25C_rep1_ch_1_2_-10dBm_arg_5mA.csv"
    ⟨"SPCM", "W001", "D1", "2", "C1", "Dev1", "25", "1", "1", "2", "-10", "_arg_5mA"⟩
    rfl (by decide) [] [(5, "mA")] [⟨2, 0, 2, 1⟩] rfl

/-! # Claim C2, amended theorem -/

/-- On a token list of bare numeric+unit tokens the walk consumes leading
groups of three tokens as implicit electrical-condition entries and the
trailing `length mod 3` tokens as arguments. -/
theorem walk_bare : ∀ (n : Nat) (tokens : List String), tokens.length ≤ n →
    (∀ t ∈ tokens, (pyNumUnit t).isSome) →
    ∀ i ecs args steps, ∃ ecs2 steps2,
      walk tokens i false ecs args steps =
        .ok (ecs ++ ecs2,
             args ++ (tokens.drop (3 * (tokens.length / 3))).filterMap pyNumUnit, steps2) ∧
      ecs2.length = tokens.length / 3 := by
  intro n
  induction n with
  | zero =>
    intro tokens hlen hbare i ecs args steps
    have : tokens = [] := List.length_eq_zero.mp (by omega)
    subst this
    exact ⟨[], steps, by rw [walk.eq_def]; simp, by simp⟩
  | succ n ih =>
    intro tokens hlen hbare i ecs args steps
    cases tokens with
    | nil => exact ⟨[], steps, by rw [walk.eq_def]; simp, by simp⟩
    | cons t1 rest =>
      have hb1 : (pyNumUnit t1).isSome := hbare t1 (by simp)
      obtain ⟨v1, hv1⟩ := Option.isSome_iff_exists.mp hb1
      have hSMU : t1 ≠ "SMU" := by
        intro e; rw [e, pyNumUnit_SMU] at hv1; cases hv1
      have hArg : t1 ≠ "arg" := by
        intro e; rw [e, pyNumUnit_arg] at hv1; cases hv1
      have hEmp : t1 ≠ "" := by
        intro e; rw [e, pyNumUnit_empty] at hv1; cases hv1
      cases rest with
      | nil =>
        refine ⟨[], steps ++ [⟨3, i, 1, 1⟩], ?_, by simp⟩
        rw [walk.eq_def]
        dsimp only
        rw [if_neg hSMU, if_neg (by simp), if_neg hArg, if_pos hEmp, hv1]
        dsimp only
        rw [walk.eq_def]
        dsimp only
        simp [hv1]
      | cons t2 r2 =>
        have hb2 : (pyNumUnit t2).isSome := hbare t2 (by simp)
        obtain ⟨v2, hv2⟩ := Option.isSome_iff_exists.mp hb2
        cases r2 with
        | nil =>
          have hEmp2 : t2 ≠ "" := by
            intro e; rw [e, pyNumUnit_empty] at hv2; cases hv2
          have hSMU2 : t2 ≠ "SMU" := by
            intro e; rw [e, pyNumUnit_SMU] at hv2; cases hv2
          have hArg2 : t2 ≠ "arg" := by
            intro e; rw [e, pyNumUnit_arg] at hv2; cases hv2
          refine ⟨[], steps ++ [⟨3, i, 1, 1⟩] ++ [⟨3, i + 1, 1, 1⟩], ?_, by simp⟩
          rw [walk.eq_def]
          dsimp only
          rw [if_neg hSMU, if_neg (by simp), if_neg hArg, if_pos hEmp, hv1]
          dsimp only
          rw [walk.eq_def]
          dsimp only
          rw [if_neg hSMU2, if_neg (by simp), if_neg hArg2, if_pos hEmp2, hv2]
          dsimp only
          rw [walk.eq_def]
          simp [hv1, hv2]
        | cons t3 r3 =>
          have hb3 : (pyNumUnit t3).isSome := hbare t3 (by simp)
          obtain ⟨v3, hv3⟩ := Option.isSome_iff_exists.mp hb3
          obtain ⟨ecs2, steps2, hrec, hlen2⟩ :=
            ih r3 (by simp only [List.length_cons] at hlen; omega)
              (fun t ht => hbare t (by simp [ht])) (i + 3)
              (ecs ++ [⟨t1, t2, v3⟩]) args (steps ++ [⟨1, i, 3, 1⟩])
          refine ⟨⟨t1, t2, v3⟩ :: ecs2, steps2, ?_,
            by simp only [List.length_cons, hlen2]; omega⟩
          rw [walk.eq_def]
          dsimp only
          rw [if_neg hSMU, if_pos ⟨by simp, hArg, rfl⟩]
          try dsimp only
          rw [hv3]
          try dsimp only
          rw [hrec]
          have harith : (t1 :: t2 :: t3 :: r3).length / 3 = r3.length / 3 + 1 := by
            simp only [List.length_cons]; omega
          have hdrop : (t1 :: t2 :: t3 :: r3).drop
              (3 * ((t1 :: t2 :: t3 :: r3).length / 3)) = r3.drop (3 * (r3.length / 3)) := by
            rw [harith]
            have : 3 * (r3.length / 3 + 1) = 3 * (r3.length / 3) + 3 := by omega
            rw [this]
            simp [List.drop_succ_cons]
          rw [hdrop]
          simp

/-- C2 (amended): for every filename whose fixed-field prefix matches the
grammar with a non-empty rest suffix consisting only of bare numeric+unit
tokens (no `SMU`/`arg` markers parse as numeric, so bareness excludes them),
the parse succeeds, the electrical-condition list receives `n / 3` implicit
entries from the leading groups of three tokens, and the argument list is
exactly the parses of the trailing `n mod 3` tokens in order.  The behaviour
stated by the claim (argument list = all tokens in order, empty EC list)
therefore holds exactly when the suffix has at most two tokens. -/
theorem C2_bare_suffix (name : String) (c : MainCaps) (hm : mainMatch name = some c)
    (hr : c.rest ≠ "")
    (hbare : ∀ t ∈ restTokens c.rest, (pyNumUnit t).isSome) :
    ∃ r, parse_filename name = .ok r ∧
      r.SMU.length = (restTokens c.rest).length / 3 ∧
      r.arguments = ((restTokens c.rest).drop
        (3 * ((restTokens c.rest).length / 3))).filterMap pyNumUnit := by
  obtain ⟨ecs2, steps2, hrec, hlen2⟩ :=
    walk_bare (restTokens c.rest).length (restTokens c.rest) (Nat.le_refl _) hbare
      0 [] [] []
  refine ⟨⟨c.datatype, c.wafer, c.doe, c.die, c.cage, c.device, c.temperature, c.repeat_,
           c.ch_in, c.ch_out, c.power, ecs2, _⟩, ?_, by simpa using hlen2, rfl⟩
  unfold parse_filename
  rw [hm]
  dsimp only
  rw [if_neg hr]
  rw [hrec]
  simp

theorem C2_witness :
    ∃ r, parse_filename "SPCM_W001_D1_die2_C1_Dev1_25C_rep1_ch_1_2_-10dBm_1V_2V_3V_4V_5V.csv" =
        .ok r ∧
      r.SMU.length = (restTokens "_1V_2V_3V_4V_5V").length / 3 ∧
      r.arguments = ((restTokens "_1V_2V_3V_4V_5V").drop
        (3 * ((restTokens "_1V_2V_3V_4V_5V").length / 3))).filterMap pyNumUnit :=
  C2_bare_suffix "SPCM_W001_D1_die2_C1_Dev1_25C_rep1_ch_1_2_-10dBm_1V_2V_3V_4V_5V.csv"
    ⟨"SPCM", "W001", "D1", "2", "C1", "Dev1", "25", "1", "1", "2", "-10", "_1V_2V_3V_4V_5V"⟩
    rfl (by decide) (by decide)

/-! # Claim C10 -/

/-- C10: on inputs passing the length preconditions, the two return branches
of the valley-scan analysis differ in shape: with fewer than 2 detected
valleys it returns the bare dictionary alone (no algorithm name, no version)
and that dictionary contains a `valley_loss` entry, while with at least 2
valleys it returns the 3-tuple of dictionary, algorithm name
`MRM_SPCM_analysis` and version `1.0.0`, and that dictionary has no
`valley_loss` key. -/
theorem C10_branch_shapes (lib : SciLib) (wavelength loss : List ℚ) (prominence : ℚ)
    (distance baseline_order : Nat)
    (hlen : wavelength.length = loss.length) (h10 : 10 ≤ wavelength.length) :
    ((SPCM_valley_idx lib wavelength loss prominence distance baseline_order).length < 2 →
      MRM_SPCM_analysis lib wavelength loss prominence distance baseline_order =
        .ok (.inl SPCM_empty_dict) ∧
      SPCM_empty_dict.lookup "valley_loss" = some ([], "dB")) ∧
    (2 ≤ (SPCM_valley_idx lib wavelength loss prominence distance baseline_order).length →
      ∃ dict, MRM_SPCM_analysis lib wavelength loss prominence distance baseline_order =
          .ok (.inr (dict, "MRM_SPCM_analysis", "1.0.0")) ∧
        dict.map Prod.fst = ["Extinction Ratio", "FSRnm", "FSRGHz", "FWHMnm", "FWHMGHz",
          "Q factor", "valley_wavelength", "valley_frequency"] ∧
        "valley_loss" ∉ dict.map Prod.fst) := by
  constructor
  · intro hfew
    refine ⟨?_, by decide⟩
    unfold MRM_SPCM_analysis
    rw [if_neg (by omega), if_neg (by omega), if_pos hfew]
  · intro h2
    refine ⟨[("Extinction Ratio",
            SPCM_ER lib wavelength loss prominence distance baseline_order, "dB"),
          ("FSRnm",
            SPCM_FSRnm (SPCM_wavelength_x lib wavelength loss prominence distance baseline_order),
            "nm"),
          ("FSRGHz",
            SPCM_FSRGHz (SPCM_wavelength_x lib wavelength loss prominence distance baseline_order)
              (SPCM_frequency_x lib wavelength loss prominence distance baseline_order), "GHz"),
          ("FWHMnm", SPCM_FWHMnm lib wavelength loss prominence distance baseline_order, "nm"),
          ("FWHMGHz", SPCM_FWHMGHz lib wavelength loss prominence distance baseline_order, "GHz"),
          ("Q factor", SPCM_Q lib wavelength loss prominence distance baseline_order, ""),
          ("valley_wavelength",
            SPCM_wavelength_x lib wavelength loss prominence distance baseline_order, "nm"),
          ("valley_frequency",
            SPCM_frequency_x lib wavelength loss prominence distance baseline_order, "THz")],
        ?_, by simp, by simp⟩
    unfold MRM_SPCM_analysis
    rw [if_neg (by omega), if_neg (by omega), if_neg (by omega)]

theorem C10_witness :
    (MRM_SPCM_analysis libNone [1, 2, 3, 4, 5, 6, 7, 8, 9, 10] [0, 0, 0, 0, 0, 0, 0, 0, 0, 0]
        2 5 3 = .ok (.inl SPCM_empty_dict) ∧
      SPCM_empty_dict.lookup "valley_loss" = some ([], "dB")) ∧
    (∃ dict, MRM_SPCM_analysis libTwo [1, 2, 3, 4, 5, 6, 7, 8, 9, 10]
          [0, 0, 0, 0, 0, 0, 0, 0, 0, 0] 2 5 3 =
        .ok (.inr (dict, "MRM_SPCM_analysis", "1.0.0")) ∧
      dict.map Prod.fst = ["Extinction Ratio", "FSRnm", "FSRGHz", "FWHMnm", "FWHMGHz",
        "Q factor", "valley_wavelength", "valley_frequency"] ∧
      "valley_loss" ∉ dict.map Prod.fst) :=
  ⟨(C10_branch_shapes libNone [1, 2, 3, 4, 5, 6, 7, 8, 9, 10] [0, 0, 0, 0, 0, 0, 0, 0, 0, 0]
      2 5 3 (by decide) (by decide)).1 (by decide),
   (C10_branch_shapes libTwo [1, 2, 3, 4, 5, 6, 7, 8, 9, 10] [0, 0, 0, 0, 0, 0, 0, 0, 0, 0]
      2 5 3 (by decide) (by decide)).2 (by decide)⟩

/-! # Claim C5 -/

theorem npDiff_length (xs : List ℚ) : (npDiff xs).length = xs.length - 1 := by
  simp [npDiff, List.length_zipWith]

theorem npDiff_getD (xs : List ℚ) (j : Nat) (h : j + 1 < xs.length) :
    (npDiff xs).getD j 0 = xs.getD (j + 1) 0 - xs.getD j 0 := by
  unfold npDiff
  rw [getD_zipWith _ _ _ j 0 0 0 (by simp; omega) (by omega)]
  congr 1
  rw [List.getD_eq_getElem _ 0 (by simp; omega), List.getD_eq_getElem _ 0 (by omega)]
  rw [List.getElem_drop]
  congr 1
  omega

theorem SPCM_FSRg_length (fx : List ℚ) : (SPCM_FSRg fx).length = fx.length - 1 := by
  simp [SPCM_FSRg, List.length_zipWith]

theorem SPCM_FSRg_getD (fx : List ℚ) (j : Nat) (h : j + 1 < fx.length) :
    (SPCM_FSRg fx).getD j 0 = fx.getD j 0 - fx.getD (j + 1) 0 := by
  unfold SPCM_FSRg
  rw [getD_zipWith _ _ _ j 0 0 0 (by omega) (by simp; omega)]
  congr 1
  rw [List.getD_eq_getElem _ 0 (by simp; omega), List.getD_eq_getElem _ 0 (by omega)]
  rw [List.getElem_drop]
  congr 1
  omega

/-- `getD` of the row `np.r_[d, nan]` of a two-row nan stack. -/
theorem rowF_getD (d : List ℚ) (n j : Nat) (hd : d.length = n - 1) (h1 : 1 ≤ n)
    (hj : j < n) :
    ((d.map some ++ [none]) : List (Option ℚ)).getD j none =
      if j + 1 < n then some (d.getD j 0) else none := by
  by_cases hjf : j + 1 < n
  · rw [if_pos hjf]
    rw [List.getD_append _ _ _ _ (by simp [hd]; omega)]
    rw [List.getD_eq_getElem _ _ (by simp [hd]; omega), List.getElem_map,
        ← List.getD_eq_getElem _ 0 (by omega)]
  · rw [if_neg hjf]
    rw [List.getD_append_right _ _ _ _ (by simp [hd]; omega)]
    have : j - (d.map some).length = 0 := by simp [hd]; omega
    rw [this]
    rfl

/-- `getD` of the row `np.r_[nan, d]` of a two-row nan stack. -/
theorem rowB_getD (d : List ℚ) (n j : Nat) (hd : d.length = n - 1) (hj : j < n) :
    ((none :: d.map some) : List (Option ℚ)).getD j none =
      if j = 0 then none else some (d.getD (j - 1) 0) := by
  cases j with
  | zero => rfl
  | succ j =>
    rw [if_neg (by omega)]
    simp only [List.getD_cons_succ]
    rw [List.getD_eq_getElem _ _ (by simp [hd]; omega), List.getElem_map,
        ← List.getD_eq_getElem _ 0 (by simp [hd]; omega)]
    simp

theorem FSRnm_eq_claim (wx : List ℚ) (h2 : 2 ≤ wx.length) (j : Nat) (hj : j < wx.length) :
    (SPCM_FSRnm wx).getD j 0 = FSRnm_claim wx j := by
  have hfwdlen : (SPCM_FSR_fwd wx).length = wx.length := by
    simp [SPCM_FSR_fwd, npDiff_length]; omega
  have hbwdlen : (SPCM_FSR_bwd wx).length = wx.length := by
    simp [SPCM_FSR_bwd, npDiff_length]; omega
  unfold SPCM_FSRnm
  rw [getD_zipWith nanmax2 _ _ j none none 0 (by omega) (by omega)]
  unfold SPCM_FSR_fwd SPCM_FSR_bwd
  rw [rowF_getD (npDiff wx) wx.length j (npDiff_length wx) (by omega) hj,
      rowB_getD (npDiff wx) wx.length j (npDiff_length wx) hj]
  unfold FSRnm_claim
  by_cases hjf : j + 1 < wx.length
  · rw [if_pos hjf, if_pos hjf]
    by_cases hjb : 1 ≤ j
    · rw [if_neg (by omega), if_pos hjb]
      simp only [nanmax2]
      rw [npDiff_getD wx j hjf]
      have hb : j - 1 + 1 = j := by omega
      rw [npDiff_getD wx (j - 1) (by omega), hb]
    · have hj0 : j = 0 := by omega
      subst hj0
      rw [if_pos rfl, if_neg hjb]
      simp only [nanmax2]
      rw [npDiff_getD wx 0 hjf]
  · rw [if_neg hjf, if_neg hjf, if_neg (by omega)]
    simp only [nanmax2]
    have hb : j - 1 + 1 = j := by omega
    rw [npDiff_getD wx (j - 1) (by omega), hb]

theorem FSRGHz_eq_claim (wx fx : List ℚ) (h2 : 2 ≤ wx.length)
    (hfx : fx.length = wx.length) (j : Nat) (hj : j < wx.length) :
    (SPCM_FSRGHz wx fx).getD j 0 = FSRGHz_claim wx fx j := by
  have hfwdlen : (SPCM_FSR_fwd wx).length = wx.length := by
    simp [SPCM_FSR_fwd, npDiff_length]; omega
  have hbwdlen : (SPCM_FSR_bwd wx).length = wx.length := by
    simp [SPCM_FSR_bwd, npDiff_length]; omega
  have hidxlen : (SPCM_FSRidx wx).length = wx.length := by
    simp [SPCM_FSRidx, List.length_zipWith, hfwdlen, hbwdlen]
  have hidx : (SPCM_FSRidx wx).getD j 0 =
      nanargmax2 ((SPCM_FSR_fwd wx).getD j none) ((SPCM_FSR_bwd wx).getD j none) := by
    unfold SPCM_FSRidx
    rw [getD_zipWith nanargmax2 _ _ j none none 0 (by omega) (by omega)]
  unfold SPCM_FSRGHz
  rw [getD_zipWith3L _ _ _ _ j none none 0 0 (by simp [SPCM_FSRg_length]; omega)
      (by simp [SPCM_FSRg_length]; omega) (by omega)]
  rw [rowF_getD (SPCM_FSRg fx) wx.length j (by rw [SPCM_FSRg_length, hfx]) (by omega) hj,
      rowB_getD (SPCM_FSRg fx) wx.length j (by rw [SPCM_FSRg_length, hfx]) hj]
  rw [hidx]
  unfold SPCM_FSR_fwd SPCM_FSR_bwd
  rw [rowF_getD (npDiff wx) wx.length j (npDiff_length wx) (by omega) hj,
      rowB_getD (npDiff wx) wx.length j (npDiff_length wx) hj]
  unfold FSRGHz_claim FSRfwdSel_claim
  by_cases hjf : j + 1 < wx.length
  · by_cases hjb : 1 ≤ j
    · have hjb' : ¬ j = 0 := by omega
      rw [if_pos hjf, if_pos hjf, if_pos hjf, if_neg hjb', if_neg hjb', if_pos hjb]
      simp only [nanargmax2]
      by_cases hcmp : (npDiff wx).getD j 0 < (npDiff wx).getD (j - 1) 0
      · have hone : (if (npDiff wx).getD j 0 < (npDiff wx).getD (j - 1) 0
            then 1 else 0) = 1 := if_pos hcmp
        simp only [hone]
        have hsel : ¬ (wx.getD j 0 - wx.getD (j - 1) 0 ≤ wx.getD (j + 1) 0 - wx.getD j 0) := by
          have hb : j - 1 + 1 = j := by omega
          rw [npDiff_getD wx j hjf] at hcmp
          rw [npDiff_getD wx (j - 1) (by omega), hb] at hcmp
          exact not_le.mpr hcmp
        have hd : ¬ (decide (wx.getD j 0 - wx.getD (j - 1) 0
            ≤ wx.getD (j + 1) 0 - wx.getD j 0) = true) := by simpa using hsel
        rw [if_neg hd]
        show (SPCM_FSRg fx).getD (j - 1) 0 = _
        have hb : j - 1 + 1 = j := by omega
        rw [SPCM_FSRg_getD fx (j - 1) (by omega), hb]
      · have hzero : (if (npDiff wx).getD j 0 < (npDiff wx).getD (j - 1) 0
            then 1 else 0) = 0 := if_neg hcmp
        simp only [hzero]
        have hsel : wx.getD j 0 - wx.getD (j - 1) 0 ≤ wx.getD (j + 1) 0 - wx.getD j 0 := by
          have hb : j - 1 + 1 = j := by omega
          rw [npDiff_getD wx j hjf] at hcmp
          rw [npDiff_getD wx (j - 1) (by omega), hb] at hcmp
          exact not_lt.mp hcmp
        have hd : decide (wx.getD j 0 - wx.getD (j - 1) 0
            ≤ wx.getD (j + 1) 0 - wx.getD j 0) = true := by simpa using hsel
        rw [if_pos hd]
        show (SPCM_FSRg fx).getD j 0 = _
        rw [SPCM_FSRg_getD fx j (by omega)]
    · have hj0 : j = 0 := by omega
      subst hj0
      rw [if_pos hjf, if_pos hjf, if_pos hjf, if_pos rfl, if_pos rfl, if_neg hjb]
      show (SPCM_FSRg fx).getD 0 0 = fx.getD 0 0 - fx.getD (0 + 1) 0
      rw [SPCM_FSRg_getD fx 0 (by omega)]
  · have hjb : ¬ j = 0 := by omega
    rw [if_neg hjf, if_neg hjf, if_neg hjf, if_neg hjb, if_neg hjb]
    show (SPCM_FSRg fx).getD (j - 1) 0 = fx.getD (j - 1) 0 - fx.getD j 0
    have hb : j - 1 + 1 = j := by omega
    rw [SPCM_FSRg_getD fx (j - 1) (by omega), hb]

/-- C5: for every analyzed trace with at least 2 detected valleys (and inputs
passing the length preconditions), the FSR-in-nm value at each valley is the
larger of the forward and backward neighbour distances in wavelength (an edge
valley's missing neighbour is not-a-number and always loses, so edges take
their single existing neighbour distance), and the FSR-in-GHz value at each
valley is the frequency-domain difference - earlier frequency minus later
frequency - of the same neighbour pair selected for the nm value. -/
theorem C5_FSR (lib : SciLib) (wavelength loss : List ℚ) (prominence : ℚ)
    (distance baseline_order : Nat)
    (hlen : wavelength.length = loss.length) (h10 : 10 ≤ wavelength.length)
    (h2 : 2 ≤ (SPCM_valley_idx lib wavelength loss prominence distance baseline_order).length) :
    ∃ dict, MRM_SPCM_analysis lib wavelength loss prominence distance baseline_order =
        .ok (.inr (dict, "MRM_SPCM_analysis", "1.0.0")) ∧
      ("FSRnm",
        SPCM_FSRnm (SPCM_wavelength_x lib wavelength loss prominence distance baseline_order),
        "nm") ∈ dict ∧
      ("FSRGHz",
        SPCM_FSRGHz (SPCM_wavelength_x lib wavelength loss prominence distance baseline_order)
          (SPCM_frequency_x lib wavelength loss prominence distance baseline_order),
        "GHz") ∈ dict ∧
      ∀ j < (SPCM_valley_idx lib wavelength loss prominence distance baseline_order).length,
        (SPCM_FSRnm
            (SPCM_wavelength_x lib wavelength loss prominence distance baseline_order)).getD j 0
          = FSRnm_claim
              (SPCM_wavelength_x lib wavelength loss prominence distance baseline_order) j ∧
        (SPCM_FSRGHz (SPCM_wavelength_x lib wavelength loss prominence distance baseline_order)
            (SPCM_frequency_x lib wavelength loss prominence distance baseline_order)).getD j 0
          = FSRGHz_claim
              (SPCM_wavelength_x lib wavelength loss prominence distance baseline_order)
              (SPCM_frequency_x lib wavelength loss prominence distance baseline_order) j := by
  have hwxlen : (SPCM_wavelength_x lib wavelength loss prominence distance baseline_order).length
      = (SPCM_valley_idx lib wavelength loss prominence distance baseline_order).length := by
    simp [SPCM_wavelength_x]
  have hfxlen : (SPCM_frequency_x lib wavelength loss prominence distance baseline_order).length
      = (SPCM_valley_idx lib wavelength loss prominence distance baseline_order).length := by
    simp [SPCM_frequency_x]
  refine ⟨[("Extinction Ratio",
          SPCM_ER lib wavelength loss prominence distance baseline_order, "dB"),
        ("FSRnm",
          SPCM_FSRnm (SPCM_wavelength_x lib wavelength loss prominence distance baseline_order),
          "nm"),
        ("FSRGHz",
          SPCM_FSRGHz (SPCM_wavelength_x lib wavelength loss prominence distance baseline_order)
            (SPCM_frequency_x lib wavelength loss prominence distance baseline_order), "GHz"),
        ("FWHMnm", SPCM_FWHMnm lib wavelength loss prominence distance baseline_order, "nm"),
        ("FWHMGHz", SPCM_FWHMGHz lib wavelength loss prominence distance baseline_order, "GHz"),
        ("Q factor", SPCM_Q lib wavelength loss prominence distance baseline_order, ""),
        ("valley_wavelength",
          SPCM_wavelength_x lib wavelength loss prominence distance baseline_order, "nm"),
        ("valley_frequency",
          SPCM_frequency_x lib wavelength loss prominence distance baseline_order, "THz")],
      ?_, by simp, by simp, ?_⟩
  · unfold MRM_SPCM_analysis
    rw [if_neg (by omega), if_neg (by omega), if_neg (by omega)]
  · intro j hj
    exact ⟨FSRnm_eq_claim _ (by omega) j (by omega),
           FSRGHz_eq_claim _ _ (by omega) (by omega) j (by omega)⟩

theorem C5_witness :
    ∃ dict, MRM_SPCM_analysis libTwo [1, 2, 3, 4, 5, 6, 7, 8, 9, 10]
          [0, 0, 0, 0, 0, 0, 0, 0, 0, 0] 2 5 3 =
        .ok (.inr (dict, "MRM_SPCM_analysis", "1.0.0")) ∧
      ("FSRnm",
        SPCM_FSRnm (SPCM_wavelength_x libTwo [1, 2, 3, 4, 5, 6, 7, 8, 9, 10]
          [0, 0, 0, 0, 0, 0, 0, 0, 0, 0] 2 5 3), "nm") ∈ dict ∧
      ("FSRGHz",
        SPCM_FSRGHz (SPCM_wavelength_x libTwo [1, 2, 3, 4, 5, 6, 7, 8, 9, 10]
            [0, 0, 0, 0, 0, 0, 0, 0, 0, 0] 2 5 3)
          (SPCM_frequency_x libTwo [1, 2, 3, 4, 5, 6, 7, 8, 9, 10]
            [0, 0, 0, 0, 0, 0, 0, 0, 0, 0] 2 5 3), "GHz") ∈ dict ∧
      ∀ j < (SPCM_valley_idx libTwo [1, 2, 3, 4, 5, 6, 7, 8, 9, 10]
          [0, 0, 0, 0, 0, 0, 0, 0, 0, 0] 2 5 3).length,
        (SPCM_FSRnm (SPCM_wavelength_x libTwo [1, 2, 3, 4, 5, 6, 7, 8, 9, 10]
            [0, 0, 0, 0, 0, 0, 0, 0, 0, 0] 2 5 3)).getD j 0
          = FSRnm_claim (SPCM_wavelength_x libTwo [1, 2, 3, 4, 5, 6, 7, 8, 9, 10]
              [0, 0, 0, 0, 0, 0, 0, 0, 0, 0] 2 5 3) j ∧
        (SPCM_FSRGHz (SPCM_wavelength_x libTwo [1, 2, 3, 4, 5, 6, 7, 8, 9, 10]
            [0, 0, 0, 0, 0, 0, 0, 0, 0, 0] 2 5 3)
          (SPCM_frequency_x libTwo [1, 2, 3, 4, 5, 6, 7, 8, 9, 10]
            [0, 0, 0, 0, 0, 0, 0, 0, 0, 0] 2 5 3)).getD j 0
          = FSRGHz_claim (SPCM_wavelength_x libTwo [1, 2, 3, 4, 5, 6, 7, 8, 9, 10]
              [0, 0, 0, 0, 0, 0, 0, 0, 0, 0] 2 5 3)
              (SPCM_frequency_x libTwo [1, 2, 3, 4, 5, 6, 7, 8, 9, 10]
                [0, 0, 0, 0, 0, 0, 0, 0, 0, 0] 2 5 3) j :=
  C5_FSR libTwo [1, 2, 3, 4, 5, 6, 7, 8, 9, 10] [0, 0, 0, 0, 0, 0, 0, 0, 0, 0] 2 5 3
    (by decide) (by decide) (by decide)

/-! # Claim C6 -/

theorem FWHMnm_eq_claim (lib : SciLib) (wavelength loss : List ℚ) (prominence : ℚ)
    (distance baseline_order : Nat) :
    SPCM_FWHMnm lib wavelength loss prominence distance baseline_order =
      FWHMnm_claim lib wavelength loss prominence distance baseline_order := rfl

theorem FWHMGHz_eq_claim (lib : SciLib) (wavelength loss : List ℚ) (prominence : ℚ)
    (distance baseline_order : Nat) :
    SPCM_FWHMGHz lib wavelength loss prominence distance baseline_order =
      FWHMGHz_claim lib wavelength loss prominence distance baseline_order := rfl

/-- C6: for every analyzed trace with at least 2 detected valleys, the FWHM
values are computed on the linear transmission `10^(levelled/10)` of the
baseline-levelled trace - the index-unit widths of the valleys of the negated
linear trace at 50% relative height are multiplied by the median
wavelength-sample spacing for FWHMnm and by the negated median
frequency-sample spacing for FWHMGHz - and the Q factor of each valley is its
wavelength position divided by its FWHMnm (given the scipy contract that
`peak_widths` returns one width per peak). -/
theorem C6_FWHM_Q (lib : SciLib) (wavelength loss : List ℚ) (prominence : ℚ)
    (distance baseline_order : Nat)
    (hlen : wavelength.length = loss.length) (h10 : 10 ≤ wavelength.length)
    (h2 : 2 ≤ (SPCM_valley_idx lib wavelength loss prominence distance baseline_order).length)
    (hw : (lib.peak_widths
        ((SPCM_Ty lib wavelength loss baseline_order).map (fun x => -x))
        (SPCM_valley_idx lib wavelength loss prominence distance baseline_order)
        (1 / 2)).length
      = (SPCM_valley_idx lib wavelength loss prominence distance baseline_order).length) :
    ∃ dict, MRM_SPCM_analysis lib wavelength loss prominence distance baseline_order =
        .ok (.inr (dict, "MRM_SPCM_analysis", "1.0.0")) ∧
      ("FWHMnm", SPCM_FWHMnm lib wavelength loss prominence distance baseline_order, "nm")
        ∈ dict ∧
      ("FWHMGHz", SPCM_FWHMGHz lib wavelength loss prominence distance baseline_order, "GHz")
        ∈ dict ∧
      ("Q factor", SPCM_Q lib wavelength loss prominence distance baseline_order, "") ∈ dict ∧
      SPCM_FWHMnm lib wavelength loss prominence distance baseline_order =
        FWHMnm_claim lib wavelength loss prominence distance baseline_order ∧
      SPCM_FWHMGHz lib wavelength loss prominence distance baseline_order =
        FWHMGHz_claim lib wavelength loss prominence distance baseline_order ∧
      ∀ j < (SPCM_valley_idx lib wavelength loss prominence distance baseline_order).length,
        (SPCM_Q lib wavelength loss prominence distance baseline_order).getD j 0 =
          (SPCM_wavelength_x lib wavelength loss prominence distance baseline_order).getD j 0 /
          (SPCM_FWHMnm lib wavelength loss prominence distance baseline_order).getD j 0 := by
  have hwxlen : (SPCM_wavelength_x lib wavelength loss prominence distance baseline_order).length
      = (SPCM_valley_idx lib wavelength loss prominence distance baseline_order).length := by
    simp [SPCM_wavelength_x]
  have hfwhmlen : (SPCM_FWHMnm lib wavelength loss prominence distance baseline_order).length
      = (SPCM_valley_idx lib wavelength loss prominence distance baseline_order).length := by
    simpa [SPCM_FWHMnm] using hw
  refine ⟨[("Extinction Ratio",
          SPCM_ER lib wavelength loss prominence distance baseline_order, "dB"),
        ("FSRnm",
          SPCM_FSRnm (SPCM_wavelength_x lib wavelength loss prominence distance baseline_order),
          "nm"),
        ("FSRGHz",
          SPCM_FSRGHz (SPCM_wavelength_x lib wavelength loss prominence distance baseline_order)
            (SPCM_frequency_x lib wavelength loss prominence distance baseline_order), "GHz"),
        ("FWHMnm", SPCM_FWHMnm lib wavelength loss prominence distance baseline_order, "nm"),
        ("FWHMGHz", SPCM_FWHMGHz lib wavelength loss prominence distance baseline_order, "GHz"),
        ("Q factor", SPCM_Q lib wavelength loss prominence distance baseline_order, ""),
        ("valley_wavelength",
          SPCM_wavelength_x lib wavelength loss prominence distance baseline_order, "nm"),
        ("valley_frequency",
          SPCM_frequency_x lib wavelength loss prominence distance baseline_order, "THz")],
      ?_, by simp, by simp, by simp, rfl, rfl, ?_⟩
  · unfold MRM_SPCM_analysis
    rw [if_neg (by omega), if_neg (by omega), if_neg (by omega)]
  · intro j hj
    unfold SPCM_Q
    rw [getD_zipWith _ _ _ j 0 0 0 (by omega) (by omega)]

theorem C6_witness :
    ∃ dict, MRM_SPCM_analysis libTwo [1, 2, 3, 4, 5, 6, 7, 8, 9, 10]
          [0, 0, 0, 0, 0, 0, 0, 0, 0, 0] 2 5 3 =
        .ok (.inr (dict, "MRM_SPCM_analysis", "1.0.0")) ∧
      ("FWHMnm", SPCM_FWHMnm libTwo [1, 2, 3, 4, 5, 6, 7, 8, 9, 10]
        [0, 0, 0, 0, 0, 0, 0, 0, 0, 0] 2 5 3, "nm") ∈ dict ∧
      ("FWHMGHz", SPCM_FWHMGHz libTwo [1, 2, 3, 4, 5, 6, 7, 8, 9, 10]
        [0, 0, 0, 0, 0, 0, 0, 0, 0, 0] 2 5 3, "GHz") ∈ dict ∧
      ("Q factor", SPCM_Q libTwo [1, 2, 3, 4, 5, 6, 7, 8, 9, 10]
        [0, 0, 0, 0, 0, 0, 0, 0, 0, 0] 2 5 3, "") ∈ dict ∧
      SPCM_FWHMnm libTwo [1, 2, 3, 4, 5, 6, 7, 8, 9, 10]
          [0, 0, 0, 0, 0, 0, 0, 0, 0, 0] 2 5 3 =
        FWHMnm_claim libTwo [1, 2, 3, 4, 5, 6, 7, 8, 9, 10]
          [0, 0, 0, 0, 0, 0, 0, 0, 0, 0] 2 5 3 ∧
      SPCM_FWHMGHz libTwo [1, 2, 3, 4, 5, 6, 7, 8, 9, 10]
          [0, 0, 0, 0, 0, 0, 0, 0, 0, 0] 2 5 3 =
        FWHMGHz_claim libTwo [1, 2, 3, 4, 5, 6, 7, 8, 9, 10]
          [0, 0, 0, 0, 0, 0, 0, 0, 0, 0] 2 5 3 ∧
      ∀ j < (SPCM_valley_idx libTwo [1, 2, 3, 4, 5, 6, 7, 8, 9, 10]
          [0, 0, 0, 0, 0, 0, 0, 0, 0, 0] 2 5 3).length,
        (SPCM_Q libTwo [1, 2, 3, 4, 5, 6, 7, 8, 9, 10]
            [0, 0, 0, 0, 0, 0, 0, 0, 0, 0] 2 5 3).getD j 0 =
          (SPCM_wavelength_x libTwo [1, 2, 3, 4, 5, 6, 7, 8, 9, 10]
            [0, 0, 0, 0, 0, 0, 0, 0, 0, 0] 2 5 3).getD j 0 /
          (SPCM_FWHMnm libTwo [1, 2, 3, 4, 5, 6, 7, 8, 9, 10]
            [0, 0, 0, 0, 0, 0, 0, 0, 0, 0] 2 5 3).getD j 0 :=
  C6_FWHM_Q libTwo [1, 2, 3, 4, 5, 6, 7, 8, 9, 10] [0, 0, 0, 0, 0, 0, 0, 0, 0, 0] 2 5 3
    (by decide) (by decide) (by decide) (by decide)

/-! # Claim C4 -/

theorem getD_drop_one (l : List ℚ) (j : Nat) (h : j + 1 < l.length) :
    (l.drop 1).getD j 0 = l.getD (j + 1) 0 := by
  rw [List.getD_eq_getElem _ 0 (by simp; omega), List.getD_eq_getElem _ 0 (by omega),
      List.getElem_drop]
  congr 1
  omega

theorem getD_map_rat (f : ℚ → ℚ) (l : List ℚ) (k : Nat) (hk : k < l.length) :
    (l.map f).getD k 0 = f (l.getD k 0) := by
  rw [List.getD_eq_getElem _ 0 (by simpa using hk), List.getElem_map,
      ← List.getD_eq_getElem _ 0 hk]

theorem straddles_iff (a b L : ℚ) : (a - L) * (b - L) ≤ 0 ↔ straddles a b L := by
  unfold straddles
  constructor
  · intro h
    rcases mul_nonpos_iff.mp h with ⟨h1, h2⟩ | ⟨h1, h2⟩
    · right
      constructor <;> linarith
    · left
      constructor <;> linarith
  · intro h
    rcases h with ⟨h1, h2⟩ | ⟨h1, h2⟩
    · apply mul_nonpos_iff.mpr
      right
      constructor <;> linarith
    · apply mul_nonpos_iff.mpr
      left
      constructor <;> linarith

theorem SSRF_smooth_length (lib : SciLib) (s21 : List ℚ) (w p : Int)
    (hsav : (lib.savgol_filter s21 w p).length = s21.length) :
    (SSRF_smooth lib s21 w p).length = s21.length := by
  unfold SSRF_smooth
  split
  · exact hsav
  · rfl

theorem SSRF_between_length (s : List ℚ) (L : ℚ) :
    (SSRF_between s L).length = s.length - 1 := by
  simp [SSRF_between, List.length_zipWith]

theorem SSRF_between_getD (s : List ℚ) (L : ℚ) (j : Nat) (h : j + 1 < s.length) :
    (SSRF_between s L).getD j false =
      (decide ((s.getD j 0 - L) * (s.getD (j + 1) 0 - L) ≤ 0)
        && decide (¬ s.getD j 0 = s.getD (j + 1) 0)) := by
  unfold SSRF_between
  rw [getD_zipWith _ _ _ j 0 0 false (by omega) (by simp; omega)]
  rw [getD_drop_one s j h]

theorem zipWith4L_length {α β γ δ ε : Type} (f : α → β → γ → δ → ε) :
    ∀ (l1 : List α) (l2 : List β) (l3 : List γ) (l4 : List δ),
      (zipWith4L f l1 l2 l3 l4).length =
        min (min l1.length l2.length) (min l3.length l4.length) := by
  intro l1
  induction l1 with
  | nil => intro l2 l3 l4; simp [zipWith4L]
  | cons a as ih =>
    intro l2 l3 l4
    cases l2 with
    | nil => simp [zipWith4L]
    | cons b bs =>
      cases l3 with
      | nil => simp [zipWith4L]
      | cons c cs =>
        cases l4 with
        | nil => simp [zipWith4L]
        | cons d ds =>
          simp only [zipWith4L, List.length_cons, ih bs cs ds]
          omega

theorem SSRF_inter_point_length (frequency s : List ℚ) (L : ℚ) :
    (SSRF_inter_point frequency s L).length =
      min (min frequency.length (frequency.length - 1)) (min s.length (s.length - 1)) := by
  unfold SSRF_inter_point
  rw [zipWith4L_length]
  simp [List.length_drop]

theorem SSRF_inter_point_getD (frequency s : List ℚ) (L : ℚ) (j : Nat)
    (hf : j + 1 < frequency.length) (hs : j + 1 < s.length) :
    (SSRF_inter_point frequency s L).getD j 0 =
      frequency.getD j 0 + (L - s.getD j 0)
        * (frequency.getD (j + 1) 0 - frequency.getD j 0)
        / (s.getD (j + 1) 0 - s.getD j 0) := by
  unfold SSRF_inter_point
  rw [getD_zipWith4L _ _ _ _ _ j 0 0 0 0 0 (by omega) (by simp; omega) (by omega)
      (by simp; omega)]
  rw [getD_drop_one frequency j hf, getD_drop_one s j hs]

theorem getD_zip_rat_bool (l1 : List ℚ) (l2 : List Bool) (j : Nat)
    (h1 : j < l1.length) (h2 : j < l2.length) :
    (l1.zip l2).getD j (0, false) = (l1.getD j 0, l2.getD j false) := by
  rw [List.getD_eq_getElem _ _ (by simp [List.length_zip]; omega), List.getElem_zip,
      ← List.getD_eq_getElem _ 0 h1, ← List.getD_eq_getElem _ false h2]

/-- C4: when the bandwidth analysis succeeds on paired, ascending-frequency
samples, the returned bandwidth is the linearly interpolated crossing
frequency minus the reference frequency, where the crossing pair is the first
consecutive pair of (possibly smoothed) S21 samples that straddles
`reference level - dropLevels` with unequal values, and the reference level
is the smoothed value at an index whose frequency is closest to
`referenceFrequency`. -/
theorem C4_bandwidth (lib : SciLib) (frequency s21 : List ℚ)
    (reference_frequency drop_levels : ℚ) (smooth_window polyorder : Int)
    (hlen : frequency.length = s21.length)
    (hsav : (lib.savgol_filter s21 smooth_window polyorder).length = s21.length)
    (_hsort : List.Pairwise (· ≤ ·) frequency)
    (res : (List (String × ℚ × String)) × String × String)
    (hres : MRM_SSRF_analysis lib frequency s21 reference_frequency drop_levels
        smooth_window polyorder = .ok res) :
    ∃ m j,
      m < frequency.length ∧
      (∀ k, k < frequency.length →
        |frequency.getD m 0 - reference_frequency|
          ≤ |frequency.getD k 0 - reference_frequency|) ∧
      j + 1 < (SSRF_smooth lib s21 smooth_window polyorder).length ∧
      straddles ((SSRF_smooth lib s21 smooth_window polyorder).getD j 0)
        ((SSRF_smooth lib s21 smooth_window polyorder).getD (j + 1) 0)
        ((SSRF_smooth lib s21 smooth_window polyorder).getD m 0 - drop_levels) ∧
      (SSRF_smooth lib s21 smooth_window polyorder).getD j 0
        ≠ (SSRF_smooth lib s21 smooth_window polyorder).getD (j + 1) 0 ∧
      (∀ i, i < j →
        ¬ (straddles ((SSRF_smooth lib s21 smooth_window polyorder).getD i 0)
            ((SSRF_smooth lib s21 smooth_window polyorder).getD (i + 1) 0)
            ((SSRF_smooth lib s21 smooth_window polyorder).getD m 0 - drop_levels) ∧
          (SSRF_smooth lib s21 smooth_window polyorder).getD i 0
            ≠ (SSRF_smooth lib s21 smooth_window polyorder).getD (i + 1) 0)) ∧
      res.1 = [("bandwidth",
        SSRF_interp_claim (frequency.getD j 0) (frequency.getD (j + 1) 0)
          ((SSRF_smooth lib s21 smooth_window polyorder).getD j 0)
          ((SSRF_smooth lib s21 smooth_window polyorder).getD (j + 1) 0)
          ((SSRF_smooth lib s21 smooth_window polyorder).getD m 0 - drop_levels)
          - reference_frequency, "GHz")] := by
  unfold MRM_SSRF_analysis at hres
  cases harg : npArgmin (frequency.map (fun f => |f - reference_frequency|)) with
  | none => rw [harg] at hres; simp at hres
  | some m =>
    rw [harg] at hres
    dsimp only at hres
    have hslen : (SSRF_smooth lib s21 smooth_window polyorder).length = s21.length :=
      SSRF_smooth_length lib s21 smooth_window polyorder hsav
    by_cases hm : m < (SSRF_smooth lib s21 smooth_window polyorder).length
    · rw [if_pos hm] at hres
      cases hhead : (((SSRF_inter_point frequency (SSRF_smooth lib s21 smooth_window polyorder)
            ((SSRF_smooth lib s21 smooth_window polyorder).getD m 0 - drop_levels)).zip
          (SSRF_between (SSRF_smooth lib s21 smooth_window polyorder)
            ((SSRF_smooth lib s21 smooth_window polyorder).getD m 0
              - drop_levels))).filter (fun q => q.2)).head? with
      | none => rw [hhead] at hres; simp at hres
      | some q =>
        rw [hhead] at hres
        dsimp only at hres
        injection hres with hres
        obtain ⟨hmlt, hmmin⟩ := npArgmin_spec _ m harg
        have hmlt' : m < frequency.length := by simpa using hmlt
        obtain ⟨j, hjlt, hjq, hjtrue, hjfirst⟩ :=
          filter_head_first (fun q => q.2) (0, false) _ q hhead
        have hjlt' : j + 1 < (SSRF_smooth lib s21 smooth_window polyorder).length := by
          rw [List.length_zip, SSRF_inter_point_length, SSRF_between_length] at hjlt
          omega
        have hjltf : j + 1 < frequency.length := by omega
        rw [getD_zip_rat_bool _ _ j
            (by rw [SSRF_inter_point_length]; omega)
            (by rw [SSRF_between_length]; omega)] at hjq
        have hq1 : q.1 = (SSRF_inter_point frequency
            (SSRF_smooth lib s21 smooth_window polyorder)
            ((SSRF_smooth lib s21 smooth_window polyorder).getD m 0 - drop_levels)).getD j 0 := by
          rw [← hjq]
        have hq2 : (SSRF_between (SSRF_smooth lib s21 smooth_window polyorder)
            ((SSRF_smooth lib s21 smooth_window polyorder).getD m 0 - drop_levels)).getD j false
            = true := by
          rw [← hjtrue, ← hjq]
        rw [SSRF_between_getD _ _ j hjlt'] at hq2
        rw [Bool.and_eq_true, decide_eq_true_eq, decide_eq_true_eq] at hq2
        refine ⟨m, j, hmlt', ?_, hjlt', ?_, hq2.2, ?_, ?_⟩
        · intro k hk
          have := hmmin k (by simpa using hk)
          rw [getD_map_rat _ _ m hmlt', getD_map_rat _ _ k hk] at this
          exact this
        · exact (straddles_iff _ _ _).mp hq2.1
        · intro i hi
          have hfalse := hjfirst i hi
          rw [getD_zip_rat_bool _ _ i
              (by rw [SSRF_inter_point_length]; omega)
              (by rw [SSRF_between_length]; omega)] at hfalse
          simp only at hfalse
          rw [SSRF_between_getD _ _ i (by omega)] at hfalse
          rw [Bool.and_eq_false_iff] at hfalse
          intro ⟨hstr, hne⟩
          rcases hfalse with hf1 | hf2
          · rw [decide_eq_false_iff_not] at hf1
            exact hf1 ((straddles_iff _ _ _).mpr hstr)
          · rw [decide_eq_false_iff_not, not_not] at hf2
            exact hne hf2
        · rw [← hres]
          dsimp only
          rw [hq1, SSRF_inter_point_getD _ _ _ j hjltf hjlt']
          unfold SSRF_interp_claim
          congr 2
          ring_nf
    · rw [if_neg hm] at hres
      simp at hres

theorem C4_witness :
    ∃ m j,
      m < ([0, 1, 2] : List ℚ).length ∧
      (∀ k, k < ([0, 1, 2] : List ℚ).length →
        |([0, 1, 2] : List ℚ).getD m 0 - (1 / 2 : ℚ)|
          ≤ |([0, 1, 2] : List ℚ).getD k 0 - (1 / 2 : ℚ)|) ∧
      j + 1 < (SSRF_smooth libTwo [0, -2, -4] 0 2).length ∧
      straddles ((SSRF_smooth libTwo [0, -2, -4] 0 2).getD j 0)
        ((SSRF_smooth libTwo [0, -2, -4] 0 2).getD (j + 1) 0)
        ((SSRF_smooth libTwo [0, -2, -4] 0 2).getD m 0 - 3) ∧
      (SSRF_smooth libTwo [0, -2, -4] 0 2).getD j 0
        ≠ (SSRF_smooth libTwo [0, -2, -4] 0 2).getD (j + 1) 0 ∧
      (∀ i, i < j →
        ¬ (straddles ((SSRF_smooth libTwo [0, -2, -4] 0 2).getD i 0)
            ((SSRF_smooth libTwo [0, -2, -4] 0 2).getD (i + 1) 0)
            ((SSRF_smooth libTwo [0, -2, -4] 0 2).getD m 0 - 3) ∧
          (SSRF_smooth libTwo [0, -2, -4] 0 2).getD i 0
            ≠ (SSRF_smooth libTwo [0, -2, -4] 0 2).getD (i + 1) 0)) ∧
      ([("bandwidth", (1 : ℚ), "GHz")] : List (String × ℚ × String)) =
        [("bandwidth",
          SSRF_interp_claim (([0, 1, 2] : List ℚ).getD j 0) (([0, 1, 2] : List ℚ).getD (j + 1) 0)
            ((SSRF_smooth libTwo [0, -2, -4] 0 2).getD j 0)
            ((SSRF_smooth libTwo [0, -2, -4] 0 2).getD (j + 1) 0)
            ((SSRF_smooth libTwo [0, -2, -4] 0 2).getD m 0 - 3)
            - (1 / 2 : ℚ), "GHz")] :=
  C4_bandwidth libTwo [0, 1, 2] [0, -2, -4] (1 / 2) 3 0 2 (by decide) (by decide)
    (by norm_num) ([("bandwidth", (1 : ℚ), "GHz")], "MRM_SSRF_analysis", "1.0.0")
    (by norm_num [MRM_SSRF_analysis, npArgmin, SSRF_smooth, SSRF_inter_point, SSRF_between,
      zipWith4L, List.filter, List.zip, List.zipWith, abs])

/-! # Claim C8 -/

theorem sweepConvRow_eq (r : List String) :
    (match r.map tofloat with
      | [] => ([] : List (Option ℚ))
      | c :: cs => (c.map (fun q => q * 1000000000)) :: cs) = sweepConvRow r := by
  cases r <;> rfl

/-- Header phase: rows before the first section marker are consumed into the
header without touching the data accumulator. -/
theorem read_pre_phase : ∀ (pre : List (List String)),
    (∀ row ∈ pre, startMarkerRow row = false) →
    (∀ row ∈ pre, endMarkerRow row = false) →
    (∀ row ∈ pre, headKeyRow row = true → ∃ k v u t, row = k :: v :: u :: t) →
    ∀ (rest : List (List String)) (i : Nat) (head : List (String × String × String))
      (data : List (List (Option ℚ))),
      ∃ head2, read_spectrum_rows (pre ++ rest) i none none head data =
        read_spectrum_rows rest (i + pre.length) none none head2 data := by
  intro pre
  induction pre with
  | nil => intro _ _ _ rest i head data; exact ⟨head, by simp⟩
  | cons row pre' ih =>
    intro hstart hend hkey rest i head data
    have hs := hstart row (by simp)
    have he := hend row (by simp)
    rw [List.cons_append, read_spectrum_rows.eq_def]
    dsimp only
    rw [hs, he]
    dsimp only [Option.isNone_none, Bool.true_and, Bool.and_false]
    rw [if_neg (by simp)]
    rw [if_neg (by simp)]
    by_cases hk : headKeyRow row = true
    · obtain ⟨k, v, u, t, hrow⟩ := hkey row (by simp) hk
      subst hrow
      rw [if_pos hk]
      dsimp only
      obtain ⟨head2, hrec⟩ := ih (fun r hr => hstart r (by simp [hr]))
        (fun r hr => hend r (by simp [hr])) (fun r hr => hkey r (by simp [hr]))
        rest (i + 1) (headInsert head k v u) data
      refine ⟨head2, ?_⟩
      simp only [List.length_cons]
      have harith : i + (pre'.length + 1) = i + 1 + pre'.length := by omega
      rw [harith]
      exact hrec
    · rw [if_neg hk]
      obtain ⟨head2, hrec⟩ := ih (fun r hr => hstart r (by simp [hr]))
        (fun r hr => hend r (by simp [hr])) (fun r hr => hkey r (by simp [hr]))
        rest (i + 1) head data
      refine ⟨head2, ?_⟩
      simp only [List.length_cons]
      have harith : i + (pre'.length + 1) = i + 1 + pre'.length := by omega
      rw [harith]
      exact hrec

/-- Collection phase: rows after the section marker and before the end marker
are appended to the data block cell-converted by `tofloat`. -/
theorem read_block_phase : ∀ (block : List (List String)),
    (∀ row ∈ block, endMarkerRow row = false) →
    ∀ (rest : List (List String)) (i s : Nat), s < i →
      ∀ (head : List (String × String × String)) (data : List (List (Option ℚ))),
      read_spectrum_rows (block ++ rest) i (some s) none head data =
        read_spectrum_rows rest (i + block.length) (some s) none head
          (data ++ block.map (List.map tofloat)) := by
  intro block
  induction block with
  | nil => intro _ rest i s _ head data; simp
  | cons row block' ih =>
    intro hend rest i s hsi head data
    have he := hend row (by simp)
    rw [List.cons_append, read_spectrum_rows.eq_def]
    dsimp only
    rw [he]
    rw [if_neg (by simp)]
    rw [if_neg (by simp)]
    rw [if_pos hsi]
    rw [ih (fun r hr => hend r (by simp [hr])) rest (i + 1) s (by omega) head
        (data ++ [row.map tofloat])]
    simp only [List.length_cons, List.map_cons, List.append_assoc, List.singleton_append]
    have harith : i + (block'.length + 1) = i + 1 + block'.length := by omega
    rw [harith]

/-- Error phase: without any section marker every run of the reader fails. -/
theorem read_no_marker : ∀ (rows : List (List String)),
    (∀ row ∈ rows, startMarkerRow row = false) →
    ∀ (i : Nat) (head : List (String × String × String)) (data : List (List (Option ℚ))),
      ∃ e, read_spectrum_rows rows i none none head data = .error e := by
  intro rows
  induction rows with
  | nil =>
    intro _ i head data
    exact ⟨"Dont support this file format", rfl⟩
  | cons row rest ih =>
    intro hstart i head data
    have hs := hstart row (by simp)
    rw [read_spectrum_rows.eq_def]
    dsimp only
    rw [hs]
    rw [if_neg (by simp)]
    by_cases hm : endMarkerRow row = true
    · rw [if_pos (by simp [hm])]
      exact ⟨"Dont support this file format", rfl⟩
    · rw [if_neg (by simp [hm])]
      by_cases hk : headKeyRow row = true
      · rw [if_pos hk]
        match row with
        | [] => exact ⟨"IndexError", rfl⟩
        | [k] => exact ⟨"IndexError", rfl⟩
        | [k, v] => exact ⟨"IndexError", rfl⟩
        | k :: v :: u :: t => exact ih (fun r hr => hstart r (by simp [hr])) (i + 1) _ data
      · rw [if_neg hk]
        exact ih (fun r hr => hstart r (by simp [hr])) (i + 1) head data

/-- C8: a wavelength-sweep file with a recognized section marker (well-formed
header rows, rectangular non-empty data block of positive width) yields a
data block in which every cell is `tofloat` of the raw cell - non-numeric
cells become not-a-number in that cell's position only - and the first column
is additionally multiplied by 1e9; a file with no recognized section marker
makes the read fail. -/
theorem C8_read_spectrum (rows : List (List String)) :
    ((∀ row ∈ rows, startMarkerRow row = false) →
      ∃ e, read_spectrum rows none none = .error e) ∧
    (∀ (pre : List (List String)) (mrow : List String) (block tail : List (List String)),
      rows = pre ++ mrow :: (block ++ tail) →
      (∀ row ∈ pre, startMarkerRow row = false) →
      (∀ row ∈ pre, endMarkerRow row = false) →
      (∀ row ∈ pre, headKeyRow row = true → ∃ k v u t, row = k :: v :: u :: t) →
      startMarkerRow mrow = true →
      (∀ row ∈ block, endMarkerRow row = false) →
      (tail = [] ∨ ∃ m2 t2, tail = m2 :: t2 ∧ endMarkerRow m2 = true) →
      block ≠ [] →
      (∀ row ∈ block, row.length = (block.headD []).length) →
      1 ≤ (block.headD []).length →
      ∃ head, read_spectrum rows none none = .ok (head, block.map sweepConvRow)) := by
  constructor
  · intro hnone
    exact read_no_marker rows hnone 0 [] []
  · intro pre mrow block tail hrows hpre1 hpre2 hpre3 hmrow hblock htail hbne hrect hwidth
    subst hrows
    unfold read_spectrum
    obtain ⟨head2, hphase1⟩ := read_pre_phase pre hpre1 hpre2 hpre3 (mrow :: (block ++ tail))
      0 [] []
    rw [hphase1]
    simp only [Nat.zero_add]
    rw [read_spectrum_rows.eq_def]
    dsimp only
    rw [hmrow]
    rw [if_pos (by simp)]
    rw [read_block_phase block hblock tail (pre.length + 1) pre.length (by omega) head2 []]
    have hfinish : ∀ (i2 : Nat),
        read_spectrum_rows tail i2 (some pre.length) none head2
          ([] ++ block.map (List.map tofloat)) =
        read_spectrum_finish (some pre.length) head2 (block.map (List.map tofloat)) := by
      intro i2
      rcases htail with hnil | ⟨m2, t2, htl, hm2⟩
      · subst hnil
        simp [read_spectrum_rows]
      · subst htl
        rw [read_spectrum_rows.eq_def]
        dsimp only
        rw [hm2]
        rw [if_neg (by simp)]
        rw [if_pos (by simp)]
        simp
    rw [hfinish]
    cases hb : block with
    | nil => exact absurd hb hbne
    | cons b0 bs =>
      subst hb
      unfold read_spectrum_finish
      simp only [List.map_cons]
      rw [if_pos ?hall]
      case hall =>
        simp only [List.all_eq_true, decide_eq_true_eq]
        intro r hr
        simp only [List.map_cons, List.mem_cons, List.mem_map] at hr
        rcases hr with hr | ⟨r0, hr0, hrr⟩
        · subst hr; rfl
        · subst hrr
          simp only [List.length_map]
          have := hrect r0 (by simp [hr0])
          simpa using this
      rw [if_neg ?hw]
      case hw =>
        simp only [List.length_map]
        have := hwidth
        simp only [List.headD_cons] at this
        omega
      refine ⟨head2, congrArg Except.ok (congrArg (Prod.mk head2) ?_)⟩
      congr 1
      · exact sweepConvRow_eq b0
      · rw [List.map_map]
        apply List.map_congr_left
        intro r _
        exact sweepConvRow_eq r

theorem C8_witness :
    (∃ e, read_spectrum [["junk"], ["alsojunk", "x"]] none none = .error e) ∧
    (∃ head, read_spectrum
        [["WavelengthStart", "1550", "nm"], ["=== Average IL (TLS 0) ==="],
         ["2e-9", "1.5"], ["3e-9", "abc"], ["=== Mueller Row 1 (TLS 0) ==="], ["x"]]
        none none =
      .ok (head, [["2e-9", "1.5"], ["3e-9", "abc"]].map sweepConvRow)) :=
  ⟨(C8_read_spectrum [["junk"], ["alsojunk", "x"]]).1 (by decide),
   (C8_read_spectrum [["WavelengthStart", "1550", "nm"], ["=== Average IL (TLS 0) ==="],
        ["2e-9", "1.5"], ["3e-9", "abc"], ["=== Mueller Row 1 (TLS 0) ==="], ["x"]]).2
     [["WavelengthStart", "1550", "nm"]] ["=== Average IL (TLS 0) ==="]
     [["2e-9", "1.5"], ["3e-9", "abc"]] [["=== Mueller Row 1 (TLS 0) ==="], ["x"]]
     rfl (by decide) (by decide)
     (by
       intro row hrow hk
       simp only [List.mem_singleton] at hrow
       subst hrow
       exact ⟨"WavelengthStart", "1550", "nm", [], rfl⟩)
     (by decide) (by decide)
     (Or.inr ⟨["=== Mueller Row 1 (TLS 0) ==="], [["x"]], rfl, by decide⟩)
     (by decide) (by decide) (by decide)⟩

end DB
